import Mathlib

/-!
Verification of the static-analysis engine consisting of
`CyclomaticComplexityAnalyzer.py` and `CodeSafetyAnalyzer.py`.

The Python syntax tree is shallowly embedded as the mutual inductive
`PyNode`/`PyNodes`: each constructor corresponds to one AST node kind the
analyzers inspect, carrying its 1-based source line number and its children
in the order `ast.NodeVisitor.generic_visit` traverses them.  Node kinds the
visitors have no method for are collapsed into `PyNode.other`.  Machine
integers are modelled as `Nat`/`Int` and Python floats by `ℚ` (the analyzers
only ever divide exact integer counts).  Python string `.lower()` is modelled
with `Char.toLower`, which covers the ASCII identifiers the analyzers see.
-/

/-- Decision point dict `{'type': str, 'line': int}` recorded by
`ComplexityVisitor._add_decision_point`. -/
structure DecisionPoint where
  type : String
  line : Nat
deriving DecidableEq

/-- The `ComplexityMetric` dataclass of `CyclomaticComplexityAnalyzer.py`. -/
structure ComplexityMetric where
  name : String
  complexity : Nat
  line_number : Nat
  type : String
  nested_depth : Nat
  decision_points : List DecisionPoint
deriving DecidableEq

/-- Shape of the `type` field of an `ast.ExceptHandler` node, as far as
`CodeVisitor.visit_ExceptHandler` inspects it: absent, a bare `ast.Name`
(with its identifier), or any other expression. -/
inductive ExceptKind where
  | noType
  | typeName (id : String)
  | typeOther
deriving DecidableEq

/-- The operator of an `ast.BoolOp` node (always `ast.And` or `ast.Or`). -/
inductive BoolOpKind where
  | andOp
  | orOp
deriving DecidableEq

/-- The operator of an `ast.BinOp` node: `ast.Add` or anything else. -/
inductive BinOpKind where
  | add
  | otherOp
deriving DecidableEq

/-- A Python literal constant (`ast.Constant`).  String literals carry their
text, which `CodeVisitor._is_sql_string` reads; other literal kinds only
matter through `isinstance(node.value, (ast.Str, ast.Constant))` checks. -/
inductive ConstVal where
  | str (s : String)
  | num (n : Int)
  | boolLit (b : Bool)
  | noneLit
deriving DecidableEq

mutual
/-- Embedded Python AST node.  Children appear in `generic_visit` order. -/
inductive PyNode where
  | functionDef (name : String) (lineno : Nat) (body : PyNodes)
  | classDef (name : String) (lineno : Nat) (body : PyNodes)
  | ifStmt (lineno : Nat) (children : PyNodes)
  | whileStmt (lineno : Nat) (children : PyNodes)
  | forStmt (lineno : Nat) (children : PyNodes)
  | exceptHandler (etype : ExceptKind) (lineno : Nat) (body : PyNodes)
  | returnStmt (lineno : Nat) (children : PyNodes)
  | boolOp (op : BoolOpKind) (lineno : Nat) (children : PyNodes)
  | assign (targets : PyNodes) (value : PyNode) (lineno : Nat)
  | call (func : PyNode) (args : PyNodes) (lineno : Nat)
  | binOp (left : PyNode) (op : BinOpKind) (right : PyNode) (lineno : Nat)
  | attribute (value : PyNode) (attr : String) (lineno : Nat)
  | name (id : String) (lineno : Nat)
  | constant (value : ConstVal) (lineno : Nat)
  | other (children : PyNodes)
/-- A list of sibling AST nodes (kept mutual with `PyNode` so that all
traversals are structurally recursive and kernel-evaluable). -/
inductive PyNodes where
  | nil
  | cons (head : PyNode) (tail : PyNodes)
end

deriving instance DecidableEq for PyNode
deriving instance DecidableEq for PyNodes

/-- State of `ComplexityVisitor` (`CyclomaticComplexityAnalyzer.py`,
`__init__`): metric list, running total (base 1), innermost function/class
context, nesting depth, and the global and per-context decision point lists. -/
structure VState where
  metrics : List ComplexityMetric
  total_complexity : Nat
  current_function : Option String
  current_class : Option String
  nested_depth : Nat
  all_decision_points : List DecisionPoint
  current_decision_points : List DecisionPoint
deriving DecidableEq

/-- The visitor's initial state (`ComplexityVisitor.__init__`). -/
def initVState : VState :=
  { metrics := []
    total_complexity := 1
    current_function := none
    current_class := none
    nested_depth := 0
    all_decision_points := []
    current_decision_points := [] }

/-- `ComplexityVisitor._add_decision_point`: append the point to the current
context's list and to the global list, and bump the running total. -/
def addDecisionPoint (st : VState) (line : Nat) (dtype : String) : VState :=
  { st with
    current_decision_points := st.current_decision_points ++ [⟨dtype, line⟩]
    all_decision_points := st.all_decision_points ++ [⟨dtype, line⟩]
    total_complexity := st.total_complexity + 1 }

mutual
/-- One step of `ComplexityVisitor.visit` dispatch.  Each case transcribes the
corresponding `visit_*` method; node kinds without a method perform
`generic_visit`, i.e. visit their children in order. -/
def visitNode (st : VState) : PyNode → VState
  | .functionDef nm ln body =>
      let previous_function := st.current_function
      let previous_points := st.current_decision_points
      let start_complexity := st.total_complexity
      let st1 : VState :=
        { st with
          current_function := some nm
          current_decision_points := []
          nested_depth := st.nested_depth + 1 }
      let st2 := visitNodes st1 body
      let function_complexity := st2.total_complexity - start_complexity + 1
      { st2 with
        metrics := st2.metrics ++
          [⟨nm, function_complexity, ln, "function", st2.nested_depth,
            st2.current_decision_points⟩]
        nested_depth := st2.nested_depth - 1
        current_function := previous_function
        current_decision_points := previous_points }
  | .classDef nm _ body =>
      let previous_class := st.current_class
      let st1 : VState :=
        { st with current_class := some nm, nested_depth := st.nested_depth + 1 }
      let st2 := visitNodes st1 body
      { st2 with nested_depth := st2.nested_depth - 1, current_class := previous_class }
  | .ifStmt ln cs => visitNodes (addDecisionPoint st ln "if") cs
  | .whileStmt ln cs => visitNodes (addDecisionPoint st ln "loop") cs
  | .forStmt ln cs => visitNodes (addDecisionPoint st ln "loop") cs
  | .exceptHandler _ ln body => visitNodes (addDecisionPoint st ln "except") body
  | .returnStmt ln cs =>
      match st.current_function with
      | some _ => visitNodes (addDecisionPoint st ln "return") cs
      | none => visitNodes st cs
  | .boolOp op ln cs =>
      match op with
      | .andOp => visitNodes (addDecisionPoint st ln "boolean_op") cs
      | .orOp => visitNodes (addDecisionPoint st ln "boolean_op") cs
  | .assign targets value _ => visitNode (visitNodes st targets) value
  | .call func args _ => visitNodes (visitNode st func) args
  | .binOp l _ r _ => visitNode (visitNode st l) r
  | .attribute v _ _ => visitNode st v
  | .name _ _ => st
  | .constant _ _ => st
  | .other cs => visitNodes st cs
/-- Visit a list of sibling nodes left to right. -/
def visitNodes (st : VState) : PyNodes → VState
  | .nil => st
  | .cons n ns => visitNodes (visitNode st n) ns
end

/-- Run `ComplexityVisitor` on a parsed module (`visitor.visit(tree)`; the
`ast.Module` node itself has no visitor method, so only its body is walked). -/
def runVisitor (module : PyNodes) : VState :=
  visitNodes initVState module

mutual
/-- Number of decision points the traversal records inside a node's whole
subtree when the innermost-function flag is `inFun` on entry: one per
conditional, loop, exception handler, or boolean operator, plus one per
return statement that sits inside some function. -/
def nodeDecisions (inFun : Bool) : PyNode → Nat
  | .functionDef _ _ body => nodesDecisions true body
  | .classDef _ _ body => nodesDecisions inFun body
  | .ifStmt _ cs => 1 + nodesDecisions inFun cs
  | .whileStmt _ cs => 1 + nodesDecisions inFun cs
  | .forStmt _ cs => 1 + nodesDecisions inFun cs
  | .exceptHandler _ _ body => 1 + nodesDecisions inFun body
  | .returnStmt _ cs => (if inFun then 1 else 0) + nodesDecisions inFun cs
  | .boolOp _ _ cs => 1 + nodesDecisions inFun cs
  | .assign targets value _ => nodesDecisions inFun targets + nodeDecisions inFun value
  | .call func args _ => nodeDecisions inFun func + nodesDecisions inFun args
  | .binOp l _ r _ => nodeDecisions inFun l + nodeDecisions inFun r
  | .attribute v _ _ => nodeDecisions inFun v
  | .name _ _ => 0
  | .constant _ _ => 0
  | .other cs => nodesDecisions inFun cs
/-- Decision points recorded inside a whole list of sibling subtrees. -/
def nodesDecisions (inFun : Bool) : PyNodes → Nat
  | .nil => 0
  | .cons n ns => nodeDecisions inFun n + nodesDecisions inFun ns
end

mutual
/-- Number of decision points recorded against the *current* context inside a
node's subtree: like `nodeDecisions`, except a nested `functionDef` swaps in
its own fresh context, so it contributes nothing to the enclosing one. -/
def nodeOwn (inFun : Bool) : PyNode → Nat
  | .functionDef _ _ _ => 0
  | .classDef _ _ body => nodesOwn inFun body
  | .ifStmt _ cs => 1 + nodesOwn inFun cs
  | .whileStmt _ cs => 1 + nodesOwn inFun cs
  | .forStmt _ cs => 1 + nodesOwn inFun cs
  | .exceptHandler _ _ body => 1 + nodesOwn inFun body
  | .returnStmt _ cs => (if inFun then 1 else 0) + nodesOwn inFun cs
  | .boolOp _ _ cs => 1 + nodesOwn inFun cs
  | .assign targets value _ => nodesOwn inFun targets + nodeOwn inFun value
  | .call func args _ => nodeOwn inFun func + nodesOwn inFun args
  | .binOp l _ r _ => nodeOwn inFun l + nodeOwn inFun r
  | .attribute v _ _ => nodeOwn inFun v
  | .name _ _ => 0
  | .constant _ _ => 0
  | .other cs => nodesOwn inFun cs
/-- Context-local decision points over a list of sibling subtrees. -/
def nodesOwn (inFun : Bool) : PyNodes → Nat
  | .nil => 0
  | .cons n ns => nodeOwn inFun n + nodesOwn inFun ns
end

mutual
/-- `true` when the subtree contains no `functionDef` node. -/
def nodeNoFun : PyNode → Bool
  | .functionDef _ _ _ => false
  | .classDef _ _ body => nodesNoFun body
  | .ifStmt _ cs => nodesNoFun cs
  | .whileStmt _ cs => nodesNoFun cs
  | .forStmt _ cs => nodesNoFun cs
  | .exceptHandler _ _ body => nodesNoFun body
  | .returnStmt _ cs => nodesNoFun cs
  | .boolOp _ _ cs => nodesNoFun cs
  | .assign targets value _ => nodesNoFun targets && nodeNoFun value
  | .call func args _ => nodeNoFun func && nodesNoFun args
  | .binOp l _ r _ => nodeNoFun l && nodeNoFun r
  | .attribute v _ _ => nodeNoFun v
  | .name _ _ => true
  | .constant _ _ => true
  | .other cs => nodesNoFun cs
/-- `true` when no subtree in the list contains a `functionDef` node. -/
def nodesNoFun : PyNodes → Bool
  | .nil => true
  | .cons n ns => nodeNoFun n && nodesNoFun ns
end

/-- Default `threshold_warning` of `CyclomaticComplexityAnalyzer.__init__`. -/
def thresholdWarningDefault : Nat := 10

/-- Default `threshold_critical` of `CyclomaticComplexityAnalyzer.__init__`. -/
def thresholdCriticalDefault : Nat := 15

/-- `CyclomaticComplexityAnalyzer._determine_severity`. -/
def determineSeverity (wT cT : Nat) (complexity : Nat) : String :=
  if cT ≤ complexity then "critical"
  else if wT ≤ complexity then "warning"
  else "normal"

/-- Hotspot dict built by `CyclomaticComplexityAnalyzer._identify_hotspots`. -/
structure Hotspot where
  name : String
  complexity : Nat
  line_number : Nat
  type : String
  severity : String
  nested_depth : Nat
  decision_points : List DecisionPoint
deriving DecidableEq

/-- The hotspot dict for one metric (loop body of `_identify_hotspots`). -/
def mkHotspot (wT cT : Nat) (m : ComplexityMetric) : Hotspot :=
  { name := m.name
    complexity := m.complexity
    line_number := m.line_number
    type := m.type
    severity := determineSeverity wT cT m.complexity
    nested_depth := m.nested_depth
    decision_points := m.decision_points }

/-- Order used by `sorted(hotspots, key=lambda x: (-x['complexity'], x['line_number']))`. -/
def hotspotRel (a b : Hotspot) : Prop :=
  b.complexity < a.complexity ∨ (a.complexity = b.complexity ∧ a.line_number ≤ b.line_number)

instance : DecidableRel hotspotRel := fun a b => by
  unfold hotspotRel; infer_instance

/-- `CyclomaticComplexityAnalyzer._identify_hotspots`: keep the metrics whose
severity is not `"normal"`, build their hotspot dicts, and stable-sort by
`(-complexity, line_number)` (Python's stable sort is modelled by the stable
`insertionSort`). -/
def identifyHotspots (wT cT : Nat) (metrics : List ComplexityMetric) : List Hotspot :=
  List.insertionSort hotspotRel
    ((metrics.filter fun m => !(determineSeverity wT cT m.complexity == "normal")).map
      (mkHotspot wT cT))

/-- `CyclomaticComplexityAnalyzer._calculate_average`. -/
def calculateAverage (values : List Nat) : ℚ :=
  if values.isEmpty then 0 else (values.sum : ℚ) / values.length

/-- Python's `max` over a nonempty list. -/
def maxOfList : List Nat → Nat
  | [] => 0
  | x :: xs => xs.foldl Nat.max x

/-- `max(m.complexity for m in visitor.metrics) if visitor.metrics else 0`. -/
def maxComplexity (metrics : List ComplexityMetric) : Nat :=
  if metrics.isEmpty then 0 else maxOfList (metrics.map ComplexityMetric.complexity)

/-- The `metrics` dict assembled in `analyze_code`. -/
structure AnalyzerMetrics where
  overall_complexity : Nat
  average_function_complexity : ℚ
  max_complexity : Nat
  total_decision_points : Nat
  unique_decision_types : Nat
deriving DecidableEq

/-- Assemble the `metrics` dict from the visitor state (`analyze_code`). -/
def buildMetrics (v : VState) : AnalyzerMetrics :=
  { overall_complexity := v.total_complexity
    average_function_complexity :=
      calculateAverage ((v.metrics.filter fun m => m.type == "function").map
        ComplexityMetric.complexity)
    max_complexity := maxComplexity v.metrics
    total_decision_points := v.all_decision_points.length
    unique_decision_types := ((v.all_decision_points.map DecisionPoint.type).dedup).length }

/-- Cluster dict built by `_find_decision_clusters`. -/
structure Cluster where
  start_line : Nat
  end_line : Nat
  size : Nat
  types : List String
deriving DecidableEq

/-- The fixed `window_size` of `_find_decision_clusters`. -/
def windowSize : Nat := 5

/-- The fixed `min_cluster_size` of `_find_decision_clusters`. -/
def minClusterSize : Nat := 3

/-- Order used by `sorted(decision_points, key=lambda x: x['line'])`. -/
def lineRel (a b : DecisionPoint) : Prop := a.line ≤ b.line

instance : DecidableRel lineRel := fun a b => by
  unfold lineRel; infer_instance

/-- Stable sort of decision points by line number. -/
def sortByLine (points : List DecisionPoint) : List DecisionPoint :=
  List.insertionSort lineRel points

/-- The cluster dict built from a closed run (`current_cluster`). -/
def mkCluster (run : List DecisionPoint) : Cluster :=
  { start_line := (run.head?.map DecisionPoint.line).getD 0
    end_line := (run.getLast?.map DecisionPoint.line).getD 0
    size := run.length
    types := run.map DecisionPoint.type }

/-- The scan loop of `_find_decision_clusters`, reified to return the closed
runs (`current_cluster` at each emission).  `revRun` is the accumulating run
in reverse (its head is `current_cluster[-1]`); a run is emitted only when
its size reaches `min_cluster_size`, and a point whose line gap to the run's
last point exceeds `window_size` starts a new run. -/
def findRuns (revRun : List DecisionPoint) : List DecisionPoint → List (List DecisionPoint)
  | [] => if minClusterSize ≤ revRun.length then [revRun.reverse] else []
  | p :: rest =>
    match revRun with
    | [] => findRuns [p] rest
    | lastp :: tl =>
      if (p.line : Int) - (lastp.line : Int) ≤ (windowSize : Int) then
        findRuns (p :: lastp :: tl) rest
      else
        (if minClusterSize ≤ (lastp :: tl).length then [(lastp :: tl).reverse] else []) ++
          findRuns [p] rest

/-- `CyclomaticComplexityAnalyzer._find_decision_clusters`. -/
def findDecisionClusters (points : List DecisionPoint) : List Cluster :=
  (findRuns [] (sortByLine points)).map mkCluster

/-- One entry of the `distributions` dict of `_summarize_decision_points`. -/
structure Distribution where
  type : String
  count : Nat
  percentage : ℚ
deriving DecidableEq

/-- `type_counts[point['type']] = type_counts.get(point['type'], 0) + 1`,
with Python dict insertion-order semantics on an association list. -/
def bumpCount (counts : List (String × Nat)) (t : String) : List (String × Nat) :=
  match counts with
  | [] => [(t, 1)]
  | (k, c) :: rest => if k == t then (k, c + 1) :: rest else (k, c) :: bumpCount rest t

/-- Count decision points by type, in first-occurrence order. -/
def typeCounts (points : List DecisionPoint) : List (String × Nat) :=
  points.foldl (fun acc p => bumpCount acc p.type) []

/-- Result dict of `_summarize_decision_points`. -/
structure DecisionSummary where
  total_points : Nat
  distributions : List Distribution
  clusters : List Cluster
deriving DecidableEq

/-- `CyclomaticComplexityAnalyzer._summarize_decision_points`.  The
percentage division is only reached for a type that actually occurs, so
`total` is then positive; `ℚ` division is total so no guard is needed here. -/
def summarizeDecisionPoints (points : List DecisionPoint) : DecisionSummary :=
  let type_counts := typeCounts points
  let total := points.length
  { total_points := total
    distributions := type_counts.map fun kc =>
      ⟨kc.1, kc.2, ((kc.2 : ℚ) / (total : ℚ)) * 100⟩
    clusters := findDecisionClusters points }

/-- Recommendation dict of `_generate_recommendations` /
`_generate_hotspot_recommendation` (the latter also carries a location). -/
structure Recommendation where
  rtype : String
  message : String
  suggestion : String
  location : Option String
deriving DecidableEq

/-- `CyclomaticComplexityAnalyzer._generate_hotspot_recommendation`. -/
def generateHotspotRecommendation (h : Hotspot) : Recommendation :=
  let base_message := "High complexity in " ++ h.type ++ " '" ++ h.name ++ "'"
  let decision_types := h.decision_points.map DecisionPoint.type
  let suggestion :=
    if decision_types.dedup.length == 1 then
      let d_type := decision_types.headD ""
      if d_type == "if" then "Consider using strategy pattern or lookup tables"
      else if d_type == "loop" then "Consider breaking loop body into smaller functions"
      else "Consider breaking down into smaller functions"
    else
      "Break down the code into smaller, focused functions handling specific cases"
  { rtype := "critical"
    message := base_message
    suggestion := suggestion
    location := some ("Line " ++ toString h.line_number) }

/-- `CyclomaticComplexityAnalyzer._generate_recommendations`. -/
def generateRecommendations (wT cT : Nat) (metrics : AnalyzerMetrics)
    (hotspots : List Hotspot) : List Recommendation :=
  (if cT * 2 < metrics.overall_complexity then
    [⟨"critical", "Overall code complexity is very high",
      "Consider breaking down the code into smaller modules", none⟩]
  else []) ++
  (if (wT : ℚ) < metrics.average_function_complexity then
    [⟨"warning", "Average function complexity is high",
      "Review functions for potential simplification", none⟩]
  else []) ++
  ((hotspots.filter fun h => h.severity == "critical").map generateHotspotRecommendation)

/-- `CyclomaticComplexityAnalyzer._get_decision_description`. -/
def getDecisionDescription (t : String) : String :=
  if t == "if" then "Conditional branch"
  else if t == "loop" then "Loop construct"
  else if t == "except" then "Exception handler"
  else if t == "boolean_op" then "Boolean operation"
  else if t == "return" then "Early return statement"
  else "Unknown decision point"

/-- Entry of `_format_decision_points`. -/
structure FormattedPoint where
  type : String
  line : Nat
  description : String
deriving DecidableEq

/-- `CyclomaticComplexityAnalyzer._format_decision_points`. -/
def formatDecisionPoints (points : List DecisionPoint) : List FormattedPoint :=
  points.map fun d => ⟨d.type, d.line, getDecisionDescription d.type⟩

/-- Entry of `_generate_detailed_report`. -/
structure DetailEntry where
  name : String
  type : String
  complexity : Nat
  line_number : Nat
  nested_depth : Nat
  severity : String
  decision_points : List FormattedPoint
deriving DecidableEq

/-- `CyclomaticComplexityAnalyzer._generate_detailed_report`. -/
def generateDetailedReport (wT cT : Nat) (metrics : List ComplexityMetric) :
    List DetailEntry :=
  metrics.map fun m =>
    ⟨m.name, m.type, m.complexity, m.line_number, m.nested_depth,
      determineSeverity wT cT m.complexity, formatDecisionPoints m.decision_points⟩

/-- The full `analysis` dict returned by `analyze_code` on success. -/
structure ComplexityAnalysis where
  metrics : AnalyzerMetrics
  hotspots : List Hotspot
  recommendations : List Recommendation
  details : List DetailEntry
  decision_point_summary : DecisionSummary
deriving DecidableEq

/-- Successful branch of `CyclomaticComplexityAnalyzer.analyze_code`. -/
def buildAnalysis (wT cT : Nat) (tree : PyNodes) : ComplexityAnalysis :=
  let visitor := runVisitor tree
  let metrics := buildMetrics visitor
  let hotspots := identifyHotspots wT cT visitor.metrics
  { metrics := metrics
    hotspots := hotspots
    recommendations := generateRecommendations wT cT metrics hotspots
    details := generateDetailedReport wT cT visitor.metrics
    decision_point_summary := summarizeDecisionPoints visitor.all_decision_points }

/-- Outcome of `ast.parse(code)` inside the `try` of `analyze_code`: a parsed
tree, a `SyntaxError`, or any other exception raised during the analysis. -/
inductive ParseOutcome where
  | parsed (tree : PyNodes)
  | parseFailed
  | otherFault
deriving DecidableEq

/-- Result of `CyclomaticComplexityAnalyzer.analyze_code`: either the full
analysis dict or the single-field `{'error': ...}` dict. -/
inductive ComplexityResult where
  | report (analysis : ComplexityAnalysis)
  | error (msg : String)
deriving DecidableEq

/-- `CyclomaticComplexityAnalyzer.analyze_code`: the `except SyntaxError`
branch returns `{'error': 'Invalid Python syntax'}` and the
`except Exception` branch returns `{'error': 'Analysis failed'}`. -/
def analyzeCode (wT cT : Nat) : ParseOutcome → ComplexityResult
  | .parsed tree => .report (buildAnalysis wT cT tree)
  | .parseFailed => .error "Invalid Python syntax"
  | .otherFault => .error "Analysis failed"
/-- Does `needle` occur at the start of `hay`?  (Scaffolding for Python's
`in` substring operator.) -/
def listStarts : List Char → List Char → Bool
  | [], _ => true
  | _ :: _, [] => false
  | a :: as, b :: bs => a == b && listStarts as bs

/-- Python's `needle in hay` substring containment on character lists. -/
def listHasSub (needle : List Char) : List Char → Bool
  | [] => needle.isEmpty
  | c :: cs => listStarts needle (c :: cs) || listHasSub needle cs

/-- Python `str.lower()` on an (ASCII) identifier, as a character list. -/
def lowerName (s : String) : List Char :=
  s.data.map Char.toLower

/-- The credential substrings of `CodeVisitor.visit_Assign`. -/
def credWords : List String := ["password", "secret", "key", "token"]

/-- `any(cred in name for cred in ['password', 'secret', 'key', 'token'])`
applied to `target.id.lower()`. -/
def credMatch (id : String) : Bool :=
  credWords.any fun cred => listHasSub cred.data (lowerName id)

/-- `isinstance(node.value, (ast.Str, ast.Constant))`: since `ast.Constant`
matches every literal, this is simply "the value is a literal constant". -/
def valueIsConst : PyNode → Bool
  | .constant _ _ => true
  | _ => false

/-- `isinstance(n, ast.Str)`: a literal whose value is a string. -/
def isStrNode : PyNode → Bool
  | .constant (.str _) _ => true
  | _ => false

/-- `get_string_value` inside `CodeVisitor._is_sql_string`. -/
def getStringValue : PyNode → String
  | .constant (.str s) _ => s
  | _ => ""

/-- The SQL keyword set of `CodeVisitor._is_sql_string`. -/
def sqlKeywords : List String := ["select", "insert", "update", "delete", "where", "from"]

/-- `CodeVisitor._is_sql_string` on the two operands of a binary `+` node. -/
def isSqlString (l r : PyNode) : Bool :=
  let combined := lowerName (getStringValue l) ++ ' ' :: lowerName (getStringValue r)
  sqlKeywords.any fun kw => listHasSub kw.data combined

/-- State of `CodeVisitor` (`CodeSafetyAnalyzer.py`, `__init__`). -/
structure CVState where
  has_hardcoded_credentials : Bool
  has_unsafe_deserialization : Bool
  has_sql_concatenation : Bool
  has_unsafe_file_ops : Bool
  has_debug_info : Bool
  has_broad_exception_handling : Bool
  credential_locations : List Nat
  deserialization_locations : List Nat
  sql_locations : List Nat
  file_op_locations : List Nat
  debug_locations : List Nat
  exception_locations : List Nat
deriving DecidableEq

/-- `CodeVisitor.__init__`: all flags false, all location lists empty. -/
def initCVState : CVState :=
  { has_hardcoded_credentials := false
    has_unsafe_deserialization := false
    has_sql_concatenation := false
    has_unsafe_file_ops := false
    has_debug_info := false
    has_broad_exception_handling := false
    credential_locations := []
    deserialization_locations := []
    sql_locations := []
    file_op_locations := []
    debug_locations := []
    exception_locations := [] }

/-- The `for target in node.targets` loop of `CodeVisitor.visit_Assign`:
for each `ast.Name` target whose lower-cased id contains a credential word,
if the assigned value is a literal constant, set the flag and record the
assignment's line. -/
def credScanTargets (st : CVState) (value : PyNode) (ln : Nat) : PyNodes → CVState
  | .nil => st
  | .cons t ts =>
    match t with
    | .name id _ =>
      if credMatch id then
        if valueIsConst value then
          credScanTargets
            { st with
              has_hardcoded_credentials := true
              credential_locations := st.credential_locations ++ [ln] }
            value ln ts
        else credScanTargets st value ln ts
      else credScanTargets st value ln ts
    | _ => credScanTargets st value ln ts

/-- The lines that `credScanTargets` records (one per matching target). -/
def credScanLines (value : PyNode) (ln : Nat) : PyNodes → List Nat
  | .nil => []
  | .cons t ts =>
    (match t with
     | .name id _ =>
       if credMatch id then (if valueIsConst value then [ln] else []) else []
     | _ => []) ++ credScanLines value ln ts

/-- The fixed unsafe-deserialization callee list of `CodeVisitor.visit_Call`.
Note the entries are dotted, yet they are compared against the id of a bare
`ast.Name` callee, which never contains a dot. -/
def deserCallees : List String := ["pickle.loads", "yaml.load"]

/-- The debug-output callee list of `CodeVisitor.visit_Call`. -/
def debugCallees : List String := ["print", "logging.debug"]

/-- The body of `CodeVisitor.visit_Call` before `generic_visit`. -/
def callCheck (st : CVState) (func : PyNode) (ln : Nat) : CVState :=
  match func with
  | .name id _ =>
    let st1 :=
      if deserCallees.contains id then
        { st with
          has_unsafe_deserialization := true
          deserialization_locations := st.deserialization_locations ++ [ln] }
      else st
    if debugCallees.contains id then
      { st1 with
        has_debug_info := true
        debug_locations := st1.debug_locations ++ [ln] }
    else st1
  | _ => st

/-- The body of `CodeVisitor.visit_BinOp` before `generic_visit`. -/
def binOpCheck (st : CVState) (l : PyNode) (op : BinOpKind) (r : PyNode) (ln : Nat) :
    CVState :=
  match op with
  | .add =>
    if (isStrNode l || isStrNode r) && isSqlString l r then
      { st with
        has_sql_concatenation := true
        sql_locations := st.sql_locations ++ [ln] }
    else st
  | .otherOp => st

/-- The body of `CodeVisitor.visit_ExceptHandler` before `generic_visit`:
flag a handler with no exception type or with the bare type `Exception`. -/
def exceptCheck (st : CVState) (etype : ExceptKind) (ln : Nat) : CVState :=
  match etype with
  | .noType =>
    { st with
      has_broad_exception_handling := true
      exception_locations := st.exception_locations ++ [ln] }
  | .typeName id =>
    if id == "Exception" then
      { st with
        has_broad_exception_handling := true
        exception_locations := st.exception_locations ++ [ln] }
    else st
  | .typeOther => st

mutual
/-- One step of `CodeVisitor.visit` dispatch (`CodeSafetyAnalyzer.py`).
Nodes without a `visit_*` method do a plain `generic_visit`. -/
def svisitNode (st : CVState) : PyNode → CVState
  | .assign targets value ln =>
      svisitNode (svisitNodes (credScanTargets st value ln targets) targets) value
  | .call func args ln =>
      svisitNodes (svisitNode (callCheck st func ln) func) args
  | .binOp l op r ln =>
      svisitNode (svisitNode (binOpCheck st l op r ln) l) r
  | .exceptHandler etype ln body =>
      svisitNodes (exceptCheck st etype ln) body
  | .functionDef _ _ body => svisitNodes st body
  | .classDef _ _ body => svisitNodes st body
  | .ifStmt _ cs => svisitNodes st cs
  | .whileStmt _ cs => svisitNodes st cs
  | .forStmt _ cs => svisitNodes st cs
  | .returnStmt _ cs => svisitNodes st cs
  | .boolOp _ _ cs => svisitNodes st cs
  | .attribute v _ _ => svisitNode st v
  | .name _ _ => st
  | .constant _ _ => st
  | .other cs => svisitNodes st cs
/-- Visit a list of sibling nodes left to right. -/
def svisitNodes (st : CVState) : PyNodes → CVState
  | .nil => st
  | .cons n ns => svisitNodes (svisitNode st n) ns
end

/-- Run `CodeVisitor` on a parsed module. -/
def runSafety (module : PyNodes) : CVState :=
  svisitNodes initCVState module

mutual
/-- The credential lines recorded inside a node's subtree, in visit order. -/
def credLinesNode : PyNode → List Nat
  | .assign targets value ln =>
      credScanLines value ln targets ++ credLinesNodes targets ++ credLinesNode value
  | .call func args _ => credLinesNode func ++ credLinesNodes args
  | .binOp l _ r _ => credLinesNode l ++ credLinesNode r
  | .exceptHandler _ _ body => credLinesNodes body
  | .functionDef _ _ body => credLinesNodes body
  | .classDef _ _ body => credLinesNodes body
  | .ifStmt _ cs => credLinesNodes cs
  | .whileStmt _ cs => credLinesNodes cs
  | .forStmt _ cs => credLinesNodes cs
  | .returnStmt _ cs => credLinesNodes cs
  | .boolOp _ _ cs => credLinesNodes cs
  | .attribute v _ _ => credLinesNode v
  | .name _ _ => []
  | .constant _ _ => []
  | .other cs => credLinesNodes cs
/-- Credential lines over a list of sibling subtrees. -/
def credLinesNodes : PyNodes → List Nat
  | .nil => []
  | .cons n ns => credLinesNode n ++ credLinesNodes ns
end

mutual
/-- All nodes of a subtree, the root first (`ast.walk` up to order). -/
def allNodesN : PyNode → List PyNode
  | .functionDef nm ln body => .functionDef nm ln body :: allNodesNs body
  | .classDef nm ln body => .classDef nm ln body :: allNodesNs body
  | .ifStmt ln cs => .ifStmt ln cs :: allNodesNs cs
  | .whileStmt ln cs => .whileStmt ln cs :: allNodesNs cs
  | .forStmt ln cs => .forStmt ln cs :: allNodesNs cs
  | .exceptHandler etype ln body => .exceptHandler etype ln body :: allNodesNs body
  | .returnStmt ln cs => .returnStmt ln cs :: allNodesNs cs
  | .boolOp op ln cs => .boolOp op ln cs :: allNodesNs cs
  | .assign targets value ln =>
      .assign targets value ln :: (allNodesNs targets ++ allNodesN value)
  | .call func args ln => .call func args ln :: (allNodesN func ++ allNodesNs args)
  | .binOp l op r ln => .binOp l op r ln :: (allNodesN l ++ allNodesN r)
  | .attribute v attr ln => .attribute v attr ln :: allNodesN v
  | .name id ln => [.name id ln]
  | .constant v ln => [.constant v ln]
  | .other cs => .other cs :: allNodesNs cs
/-- All nodes of a list of sibling subtrees. -/
def allNodesNs : PyNodes → List PyNode
  | .nil => []
  | .cons n ns => allNodesN n ++ allNodesNs ns
end

/-- Convert an embedded sibling list to a `List` for membership statements. -/
def pyToList : PyNodes → List PyNode
  | .nil => []
  | .cons n ns => n :: pyToList ns

mutual
/-- Every `ast.Name` id in the subtree is dot-free — true of every tree the
Python parser can produce, since identifiers never contain `'.'`. -/
def dotFreeNode : PyNode → Bool
  | .functionDef _ _ body => dotFreeNodes body
  | .classDef _ _ body => dotFreeNodes body
  | .ifStmt _ cs => dotFreeNodes cs
  | .whileStmt _ cs => dotFreeNodes cs
  | .forStmt _ cs => dotFreeNodes cs
  | .exceptHandler _ _ body => dotFreeNodes body
  | .returnStmt _ cs => dotFreeNodes cs
  | .boolOp _ _ cs => dotFreeNodes cs
  | .assign targets value _ => dotFreeNodes targets && dotFreeNode value
  | .call func args _ => dotFreeNode func && dotFreeNodes args
  | .binOp l _ r _ => dotFreeNode l && dotFreeNode r
  | .attribute v _ _ => dotFreeNode v
  | .name id _ => !(id.data.contains '.')
  | .constant _ _ => true
  | .other cs => dotFreeNodes cs
/-- Dot-freeness over a list of sibling subtrees. -/
def dotFreeNodes : PyNodes → Bool
  | .nil => true
  | .cons n ns => dotFreeNode n && dotFreeNodes ns
end

/-- The `CodePattern` dataclass of `CodeSafetyAnalyzer.py`. -/
structure CodePattern where
  name : String
  description : String
  risk_level : String
  remediation : String
  category : String
deriving DecidableEq

/-- `patterns['hardcoded_credentials']`. -/
def hardcodedCredentialsPattern : CodePattern :=
  ⟨"Hardcoded Credentials", "Credentials or secrets directly embedded in code",
    "high", "Use environment variables or secure secret management", "security"⟩

/-- `patterns['unsafe_deserialization']`. -/
def unsafeDeserializationPattern : CodePattern :=
  ⟨"Unsafe Deserialization", "Direct deserialization of untrusted data",
    "high", "Implement proper input validation and sanitization", "security"⟩

/-- `patterns['sql_concatenation']`. -/
def sqlConcatenationPattern : CodePattern :=
  ⟨"SQL String Concatenation", "Direct string concatenation in SQL queries",
    "high", "Use parameterized queries or ORM", "security"⟩

/-- `patterns['file_path_manipulation']`. -/
def filePathManipulationPattern : CodePattern :=
  ⟨"Unsafe File Path Handling", "Insufficient validation of file paths",
    "medium", "Use path sanitization and access control", "security"⟩

/-- `patterns['debug_info']`. -/
def debugInfoPattern : CodePattern :=
  ⟨"Debug Information", "Debug/trace information in production code",
    "low", "Remove or disable debug code in production", "best_practice"⟩

/-- `patterns['error_suppression']`. -/
def errorSuppressionPattern : CodePattern :=
  ⟨"Broad Error Suppression", "Catching all exceptions without proper handling",
    "medium", "Catch specific exceptions and handle appropriately", "reliability"⟩

/-- A findings entry `{'pattern': ..., 'locations': ...}`. -/
structure Finding where
  pattern : CodePattern
  locations : List Nat
deriving DecidableEq

/-- `CodeSafetyAnalyzer._analyze_patterns`: one finding per pattern whose
flag is set, in the fixed order of the six checks. -/
def analyzePatterns (v : CVState) : List Finding :=
  (if v.has_hardcoded_credentials then
    [⟨hardcodedCredentialsPattern, v.credential_locations⟩] else []) ++
  (if v.has_unsafe_deserialization then
    [⟨unsafeDeserializationPattern, v.deserialization_locations⟩] else []) ++
  (if v.has_sql_concatenation then
    [⟨sqlConcatenationPattern, v.sql_locations⟩] else []) ++
  (if v.has_unsafe_file_ops then
    [⟨filePathManipulationPattern, v.file_op_locations⟩] else []) ++
  (if v.has_debug_info then
    [⟨debugInfoPattern, v.debug_locations⟩] else []) ++
  (if v.has_broad_exception_handling then
    [⟨errorSuppressionPattern, v.exception_locations⟩] else [])

mutual
/-- Increment count of the second `ComplexityVisitor` (the one inside
`CodeSafetyAnalyzer.py`): one per `if`/`while`/`for`, and one per boolean
operator node (`visit_And`/`visit_Or` fire once per `BoolOp`'s `op` child). -/
def sCountNode : PyNode → Nat
  | .ifStmt _ cs => 1 + sCountNodes cs
  | .whileStmt _ cs => 1 + sCountNodes cs
  | .forStmt _ cs => 1 + sCountNodes cs
  | .boolOp _ _ cs => 1 + sCountNodes cs
  | .functionDef _ _ body => sCountNodes body
  | .classDef _ _ body => sCountNodes body
  | .exceptHandler _ _ body => sCountNodes body
  | .returnStmt _ cs => sCountNodes cs
  | .assign targets value _ => sCountNodes targets + sCountNode value
  | .call func args _ => sCountNode func + sCountNodes args
  | .binOp l _ r _ => sCountNode l + sCountNode r
  | .attribute v _ _ => sCountNode v
  | .name _ _ => 0
  | .constant _ _ => 0
  | .other cs => sCountNodes cs
/-- Increment count over a list of sibling subtrees. -/
def sCountNodes : PyNodes → Nat
  | .nil => 0
  | .cons n ns => sCountNode n + sCountNodes ns
end

/-- `isinstance(node, ast.FunctionDef)`. -/
def isFunctionDef : PyNode → Bool
  | .functionDef _ _ _ => true
  | _ => false

/-- `isinstance(node, ast.ClassDef)`. -/
def isClassDef : PyNode → Bool
  | .classDef _ _ _ => true
  | _ => false

/-- The `metrics` dict of `CodeSafetyAnalyzer._calculate_metrics`.  The
`lines_of_code` and `comment_ratio` entries are initialized and never
updated by the source. -/
structure SafetyMetrics where
  cyclomatic_complexity : Nat
  number_of_functions : Nat
  number_of_classes : Nat
  lines_of_code : Nat
  comment_ratio : ℚ
deriving DecidableEq

/-- `CodeSafetyAnalyzer._calculate_metrics`. -/
def calcSafetyMetrics (tree : PyNodes) : SafetyMetrics :=
  { cyclomatic_complexity := 1 + sCountNodes tree
    number_of_functions := (allNodesNs tree).countP fun n => isFunctionDef n
    number_of_classes := (allNodesNs tree).countP fun n => isClassDef n
    lines_of_code := 0
    comment_ratio := 0 }

/-- Recommendation dict of `CodeSafetyAnalyzer._generate_recommendations`. -/
structure SafetyRecommendation where
  title : String
  description : String
  remediation : String
  priority : String
deriving DecidableEq

/-- `CodeSafetyAnalyzer._generate_recommendations`. -/
def generateSafetyRecommendations (findings : List Finding)
    (metrics : SafetyMetrics) : List SafetyRecommendation :=
  (findings.map fun f =>
    ⟨"Address " ++ f.pattern.name, f.pattern.description,
      f.pattern.remediation, f.pattern.risk_level⟩) ++
  (if 10 < metrics.cyclomatic_complexity then
    [⟨"Reduce Code Complexity", "High cyclomatic complexity detected",
      "Consider breaking down complex functions", "medium"⟩]
  else [])

/-- The `results` dict of `CodeSafetyAnalyzer.analyze_code` on success. -/
structure SafetyResults where
  findings : List Finding
  metrics : SafetyMetrics
  recommendations : List SafetyRecommendation
deriving DecidableEq

/-- Successful branch of `CodeSafetyAnalyzer.analyze_code`. -/
def buildSafetyResults (tree : PyNodes) : SafetyResults :=
  let visitor := runSafety tree
  let findings := analyzePatterns visitor
  let metrics := calcSafetyMetrics tree
  { findings := findings
    metrics := metrics
    recommendations := generateSafetyRecommendations findings metrics }

/-- Result of `CodeSafetyAnalyzer.analyze_code`: the full results dict or the
single-field `{'error': ...}` dict. -/
inductive SafetyResult where
  | results (r : SafetyResults)
  | error (msg : String)
deriving DecidableEq

/-- `CodeSafetyAnalyzer.analyze_code`: its `except SyntaxError` branch also
returns `{'error': 'Invalid Python syntax'}` and its `except Exception`
branch `{'error': 'Analysis failed'}`. -/
def safetyAnalyzeCode : ParseOutcome → SafetyResult
  | .parsed tree => .results (buildSafetyResults tree)
  | .parseFailed => .error "Invalid Python syntax"
  | .otherFault => .error "Analysis failed"

/-- Gap condition of the cluster scan: the two lines differ by at most the
window (`point['line'] - current_cluster[-1]['line'] <= window_size`). -/
def gapOK (a b : DecisionPoint) : Prop :=
  (b.line : Int) - (a.line : Int) ≤ (windowSize : Int)

instance (a b : DecisionPoint) : Decidable (gapOK a b) := by
  unfold gapOK; infer_instance

/-- Separation of two runs: every point of the first lies on a strictly
earlier line than every point of the second. -/
def runSep (r s : List DecisionPoint) : Prop :=
  ∀ a ∈ r, ∀ b ∈ s, a.line < b.line

instance : IsTrans DecisionPoint lineRel :=
  ⟨fun _ _ _ hab hbc => Nat.le_trans hab hbc⟩

instance : IsTotal DecisionPoint lineRel :=
  ⟨fun a b => Nat.le_total a.line b.line⟩

instance : IsTrans Hotspot hotspotRel :=
  ⟨fun a b c hab hbc => by
    unfold hotspotRel at hab hbc ⊢
    omega⟩

instance : IsTotal Hotspot hotspotRel :=
  ⟨fun a b => by
    unfold hotspotRel
    omega⟩


/-- Concrete decision points exercising the cluster scan: three points within
the window followed by one far away. -/
def c5pts : List DecisionPoint := [⟨"if", 1⟩, ⟨"loop", 3⟩, ⟨"if", 4⟩, ⟨"return", 20⟩]

/-- The single run the scan closes on `c5pts`. -/
def c5run : List DecisionPoint := [⟨"if", 1⟩, ⟨"loop", 3⟩, ⟨"if", 4⟩]


/-- A function body with one decision point and no nested functions. -/
def c1Body : PyNodes := .cons (.ifStmt 2 .nil) .nil

/-- Embedded tree of `def outer():\n  def inner():\n    if x:\n      pass` —
a function whose only decision point sits inside a nested function. -/
def c1CexTree : PyNodes :=
  .cons (.functionDef "outer" 1
    (.cons (.functionDef "inner" 2
      (.cons (.ifStmt 3 .nil) .nil)) .nil)) .nil

/-- Embedded tree of the single statement `x = 1`: no functions, no decision
points. -/
def c2Module : PyNodes :=
  .cons (.assign (.cons (.name "x" 1) .nil) (.constant (.num 1) 1) 1) .nil

/-- Embedded tree of a module-level `if` statement: no function definitions,
yet one decision point. -/
def c10CexModule : PyNodes := .cons (.ifStmt 1 .nil) .nil


/-- Embedded tree of `api_key = 42`: a credential-named target assigned a
non-string literal constant. -/
def c6CexModule : PyNodes :=
  .cons (.assign (.cons (.name "api_key" 1) .nil) (.constant (.num 42) 1) 1) .nil

/-- Embedded tree of the spec's example `api_key = "1234secret"`. -/
def c6WitModule : PyNodes :=
  .cons (.assign (.cons (.name "api_key" 1) .nil)
    (.constant (.str "1234secret") 1) 1) .nil

/-- Embedded tree of `data = pickle.loads(untrusted)`: the callee is an
`ast.Attribute` node, not a bare `ast.Name`. -/
def c7FailModule : PyNodes :=
  .cons (.assign (.cons (.name "data" 1) .nil)
    (.call (.attribute (.name "pickle" 1) "loads" 1)
      (.cons (.name "untrusted" 1) .nil) 1) 1) .nil

/-- Embedded tree of a bare `print()` call, which produces a debug finding. -/
def c8WitModule : PyNodes := .cons (.call (.name "print" 1) .nil 1) .nil


mutual
theorem visitNode_spec : ∀ (st : VState) (n : PyNode),
    (visitNode st n).current_function = st.current_function ∧
    (visitNode st n).current_class = st.current_class ∧
    (visitNode st n).nested_depth = st.nested_depth ∧
    (visitNode st n).total_complexity
      = st.total_complexity + nodeDecisions st.current_function.isSome n ∧
    (visitNode st n).all_decision_points.length
      = st.all_decision_points.length + nodeDecisions st.current_function.isSome n ∧
    (visitNode st n).current_decision_points.length
      = st.current_decision_points.length + nodeOwn st.current_function.isSome n
  | ⟨ms, tc, cf, cc, nd, ap, cp⟩, .functionDef nm ln body => by
      have h := visitNodes_spec ⟨ms, tc, some nm, cc, nd + 1, ap, []⟩ body
      simp only [Option.isSome_some, List.length_nil] at h
      obtain ⟨h1, h2, h3, h4, h5, h6⟩ := h
      refine ⟨?_, ?_, ?_, ?_, ?_, ?_⟩ <;>
        simp only [visitNode, nodeDecisions, nodeOwn, Option.isSome_some] <;>
        first
          | rfl
          | exact h2
          | omega
  | ⟨ms, tc, cf, cc, nd, ap, cp⟩, .classDef nm ln body => by
      have h := visitNodes_spec ⟨ms, tc, cf, some nm, nd + 1, ap, cp⟩ body
      simp only [] at h
      obtain ⟨h1, h2, h3, h4, h5, h6⟩ := h
      refine ⟨?_, ?_, ?_, ?_, ?_, ?_⟩ <;>
        simp only [visitNode, nodeDecisions, nodeOwn] <;>
        first
          | rfl
          | exact h1
          | omega
  | ⟨ms, tc, cf, cc, nd, ap, cp⟩, .ifStmt ln cs => by
      have h := visitNodes_spec ⟨ms, tc + 1, cf, cc, nd, ap ++ [⟨"if", ln⟩], cp ++ [⟨"if", ln⟩]⟩ cs
      simp only [List.length_append, List.length_cons, List.length_nil] at h
      obtain ⟨h1, h2, h3, h4, h5, h6⟩ := h
      refine ⟨?_, ?_, ?_, ?_, ?_, ?_⟩ <;>
        simp only [visitNode, addDecisionPoint, nodeDecisions, nodeOwn,
          List.length_append, List.length_cons, List.length_nil] <;>
        first
          | exact h1
          | exact h2
          | omega
  | ⟨ms, tc, cf, cc, nd, ap, cp⟩, .whileStmt ln cs => by
      have h := visitNodes_spec ⟨ms, tc + 1, cf, cc, nd, ap ++ [⟨"loop", ln⟩], cp ++ [⟨"loop", ln⟩]⟩ cs
      simp only [List.length_append, List.length_cons, List.length_nil] at h
      obtain ⟨h1, h2, h3, h4, h5, h6⟩ := h
      refine ⟨?_, ?_, ?_, ?_, ?_, ?_⟩ <;>
        simp only [visitNode, addDecisionPoint, nodeDecisions, nodeOwn,
          List.length_append, List.length_cons, List.length_nil] <;>
        first
          | exact h1
          | exact h2
          | omega
  | ⟨ms, tc, cf, cc, nd, ap, cp⟩, .forStmt ln cs => by
      have h := visitNodes_spec ⟨ms, tc + 1, cf, cc, nd, ap ++ [⟨"loop", ln⟩], cp ++ [⟨"loop", ln⟩]⟩ cs
      simp only [List.length_append, List.length_cons, List.length_nil] at h
      obtain ⟨h1, h2, h3, h4, h5, h6⟩ := h
      refine ⟨?_, ?_, ?_, ?_, ?_, ?_⟩ <;>
        simp only [visitNode, addDecisionPoint, nodeDecisions, nodeOwn,
          List.length_append, List.length_cons, List.length_nil] <;>
        first
          | exact h1
          | exact h2
          | omega
  | ⟨ms, tc, cf, cc, nd, ap, cp⟩, .exceptHandler et ln body => by
      have h := visitNodes_spec
        ⟨ms, tc + 1, cf, cc, nd, ap ++ [⟨"except", ln⟩], cp ++ [⟨"except", ln⟩]⟩ body
      simp only [List.length_append, List.length_cons, List.length_nil] at h
      obtain ⟨h1, h2, h3, h4, h5, h6⟩ := h
      refine ⟨?_, ?_, ?_, ?_, ?_, ?_⟩ <;>
        simp only [visitNode, addDecisionPoint, nodeDecisions, nodeOwn,
          List.length_append, List.length_cons, List.length_nil] <;>
        first
          | exact h1
          | exact h2
          | omega
  | ⟨ms, tc, cf, cc, nd, ap, cp⟩, .returnStmt ln cs => by
      cases cf with
      | none =>
          have h := visitNodes_spec ⟨ms, tc, none, cc, nd, ap, cp⟩ cs
          simp only [Option.isSome_none] at h
          obtain ⟨h1, h2, h3, h4, h5, h6⟩ := h
          refine ⟨?_, ?_, ?_, ?_, ?_, ?_⟩ <;>
            simp only [visitNode, nodeDecisions, nodeOwn, Option.isSome_none,
              Bool.false_eq_true, if_false] <;>
            first
              | exact h1
              | exact h2
              | omega
      | some f =>
          have h := visitNodes_spec
            ⟨ms, tc + 1, some f, cc, nd, ap ++ [⟨"return", ln⟩], cp ++ [⟨"return", ln⟩]⟩ cs
          simp only [Option.isSome_some, List.length_append, List.length_cons,
            List.length_nil] at h
          obtain ⟨h1, h2, h3, h4, h5, h6⟩ := h
          refine ⟨?_, ?_, ?_, ?_, ?_, ?_⟩ <;>
            simp only [visitNode, addDecisionPoint, nodeDecisions, nodeOwn,
              Option.isSome_some, if_true, List.length_append, List.length_cons,
              List.length_nil] <;>
            first
              | exact h1
              | exact h2
              | omega
  | ⟨ms, tc, cf, cc, nd, ap, cp⟩, .boolOp op ln cs => by
      cases op with
      | andOp =>
          have h := visitNodes_spec
            ⟨ms, tc + 1, cf, cc, nd, ap ++ [⟨"boolean_op", ln⟩], cp ++ [⟨"boolean_op", ln⟩]⟩ cs
          simp only [List.length_append, List.length_cons, List.length_nil] at h
          obtain ⟨h1, h2, h3, h4, h5, h6⟩ := h
          refine ⟨?_, ?_, ?_, ?_, ?_, ?_⟩ <;>
            simp only [visitNode, addDecisionPoint, nodeDecisions, nodeOwn,
              List.length_append, List.length_cons, List.length_nil] <;>
            first
              | exact h1
              | exact h2
              | omega
      | orOp =>
          have h := visitNodes_spec
            ⟨ms, tc + 1, cf, cc, nd, ap ++ [⟨"boolean_op", ln⟩], cp ++ [⟨"boolean_op", ln⟩]⟩ cs
          simp only [List.length_append, List.length_cons, List.length_nil] at h
          obtain ⟨h1, h2, h3, h4, h5, h6⟩ := h
          refine ⟨?_, ?_, ?_, ?_, ?_, ?_⟩ <;>
            simp only [visitNode, addDecisionPoint, nodeDecisions, nodeOwn,
              List.length_append, List.length_cons, List.length_nil] <;>
            first
              | exact h1
              | exact h2
              | omega
  | st, .assign targets value ln => by
      have h1 := visitNodes_spec st targets
      have h2 := visitNode_spec (visitNodes st targets) value
      rw [h1.1] at h2
      obtain ⟨g1, g2, g3, g4, g5, g6⟩ := h1
      obtain ⟨k1, k2, k3, k4, k5, k6⟩ := h2
      refine ⟨?_, ?_, ?_, ?_, ?_, ?_⟩ <;>
        simp only [visitNode, nodeDecisions, nodeOwn] <;>
        first
          | exact k1
          | exact k2.trans g2
          | exact k3.trans g3
          | omega
  | st, .call func args ln => by
      have h1 := visitNode_spec st func
      have h2 := visitNodes_spec (visitNode st func) args
      rw [h1.1] at h2
      obtain ⟨g1, g2, g3, g4, g5, g6⟩ := h1
      obtain ⟨k1, k2, k3, k4, k5, k6⟩ := h2
      refine ⟨?_, ?_, ?_, ?_, ?_, ?_⟩ <;>
        simp only [visitNode, nodeDecisions, nodeOwn] <;>
        first
          | exact k1
          | exact k2.trans g2
          | exact k3.trans g3
          | omega
  | st, .binOp l op r ln => by
      have h1 := visitNode_spec st l
      have h2 := visitNode_spec (visitNode st l) r
      rw [h1.1] at h2
      obtain ⟨g1, g2, g3, g4, g5, g6⟩ := h1
      obtain ⟨k1, k2, k3, k4, k5, k6⟩ := h2
      refine ⟨?_, ?_, ?_, ?_, ?_, ?_⟩ <;>
        simp only [visitNode, nodeDecisions, nodeOwn] <;>
        first
          | exact k1
          | exact k2.trans g2
          | exact k3.trans g3
          | omega
  | st, .attribute v a ln => by
      have h := visitNode_spec st v
      obtain ⟨h1, h2, h3, h4, h5, h6⟩ := h
      refine ⟨?_, ?_, ?_, ?_, ?_, ?_⟩ <;>
        simp only [visitNode, nodeDecisions, nodeOwn] <;>
        first
          | exact h1
          | exact h2
          | omega
  | st, .name i ln => by
      refine ⟨?_, ?_, ?_, ?_, ?_, ?_⟩ <;>
        simp [visitNode, nodeDecisions, nodeOwn]
  | st, .constant v ln => by
      refine ⟨?_, ?_, ?_, ?_, ?_, ?_⟩ <;>
        simp [visitNode, nodeDecisions, nodeOwn]
  | st, .other cs => by
      have h := visitNodes_spec st cs
      obtain ⟨h1, h2, h3, h4, h5, h6⟩ := h
      refine ⟨?_, ?_, ?_, ?_, ?_, ?_⟩ <;>
        simp only [visitNode, nodeDecisions, nodeOwn] <;>
        first
          | exact h1
          | exact h2
          | omega
theorem visitNodes_spec : ∀ (st : VState) (ns : PyNodes),
    (visitNodes st ns).current_function = st.current_function ∧
    (visitNodes st ns).current_class = st.current_class ∧
    (visitNodes st ns).nested_depth = st.nested_depth ∧
    (visitNodes st ns).total_complexity
      = st.total_complexity + nodesDecisions st.current_function.isSome ns ∧
    (visitNodes st ns).all_decision_points.length
      = st.all_decision_points.length + nodesDecisions st.current_function.isSome ns ∧
    (visitNodes st ns).current_decision_points.length
      = st.current_decision_points.length + nodesOwn st.current_function.isSome ns
  | st, .nil => by
      refine ⟨?_, ?_, ?_, ?_, ?_, ?_⟩ <;>
        simp [visitNodes, nodesDecisions, nodesOwn]
  | st, .cons n ns => by
      have h1 := visitNode_spec st n
      have h2 := visitNodes_spec (visitNode st n) ns
      rw [h1.1] at h2
      obtain ⟨g1, g2, g3, g4, g5, g6⟩ := h1
      obtain ⟨k1, k2, k3, k4, k5, k6⟩ := h2
      refine ⟨?_, ?_, ?_, ?_, ?_, ?_⟩ <;>
        simp only [visitNodes, nodesDecisions, nodesOwn] <;>
        first
          | exact k1
          | exact k2.trans g2
          | exact k3.trans g3
          | omega
end

mutual
theorem nodeNoFun_metrics : ∀ (st : VState) (n : PyNode), nodeNoFun n = true →
    (visitNode st n).metrics = st.metrics
  | st, .functionDef nm ln body => by
      intro h
      simp [nodeNoFun] at h
  | ⟨ms, tc, cf, cc, nd, ap, cp⟩, .classDef nm ln body => by
      intro h
      simp only [nodeNoFun] at h
      simp only [visitNode]
      exact nodesNoFun_metrics ⟨ms, tc, cf, some nm, nd + 1, ap, cp⟩ body h
  | ⟨ms, tc, cf, cc, nd, ap, cp⟩, .ifStmt ln cs => by
      intro h
      simp only [nodeNoFun] at h
      simpa [visitNode, addDecisionPoint] using
        nodesNoFun_metrics ⟨ms, tc + 1, cf, cc, nd, ap ++ [⟨"if", ln⟩], cp ++ [⟨"if", ln⟩]⟩ cs h
  | ⟨ms, tc, cf, cc, nd, ap, cp⟩, .whileStmt ln cs => by
      intro h
      simp only [nodeNoFun] at h
      simpa [visitNode, addDecisionPoint] using
        nodesNoFun_metrics ⟨ms, tc + 1, cf, cc, nd, ap ++ [⟨"loop", ln⟩], cp ++ [⟨"loop", ln⟩]⟩ cs h
  | ⟨ms, tc, cf, cc, nd, ap, cp⟩, .forStmt ln cs => by
      intro h
      simp only [nodeNoFun] at h
      simpa [visitNode, addDecisionPoint] using
        nodesNoFun_metrics ⟨ms, tc + 1, cf, cc, nd, ap ++ [⟨"loop", ln⟩], cp ++ [⟨"loop", ln⟩]⟩ cs h
  | ⟨ms, tc, cf, cc, nd, ap, cp⟩, .exceptHandler et ln body => by
      intro h
      simp only [nodeNoFun] at h
      simpa [visitNode, addDecisionPoint] using
        nodesNoFun_metrics ⟨ms, tc + 1, cf, cc, nd, ap ++ [⟨"except", ln⟩], cp ++ [⟨"except", ln⟩]⟩
          body h
  | ⟨ms, tc, cf, cc, nd, ap, cp⟩, .returnStmt ln cs => by
      intro h
      simp only [nodeNoFun] at h
      cases cf with
      | none =>
          simpa [visitNode] using nodesNoFun_metrics ⟨ms, tc, none, cc, nd, ap, cp⟩ cs h
      | some f =>
          simpa [visitNode, addDecisionPoint] using
            nodesNoFun_metrics
              ⟨ms, tc + 1, some f, cc, nd, ap ++ [⟨"return", ln⟩], cp ++ [⟨"return", ln⟩]⟩ cs h
  | ⟨ms, tc, cf, cc, nd, ap, cp⟩, .boolOp op ln cs => by
      intro h
      simp only [nodeNoFun] at h
      cases op with
      | andOp =>
          simpa [visitNode, addDecisionPoint] using
            nodesNoFun_metrics
              ⟨ms, tc + 1, cf, cc, nd, ap ++ [⟨"boolean_op", ln⟩], cp ++ [⟨"boolean_op", ln⟩]⟩ cs h
      | orOp =>
          simpa [visitNode, addDecisionPoint] using
            nodesNoFun_metrics
              ⟨ms, tc + 1, cf, cc, nd, ap ++ [⟨"boolean_op", ln⟩], cp ++ [⟨"boolean_op", ln⟩]⟩ cs h
  | st, .assign targets value ln => by
      intro h
      simp only [nodeNoFun, Bool.and_eq_true] at h
      simp only [visitNode]
      rw [nodeNoFun_metrics (visitNodes st targets) value h.2,
        nodesNoFun_metrics st targets h.1]
  | st, .call func args ln => by
      intro h
      simp only [nodeNoFun, Bool.and_eq_true] at h
      simp only [visitNode]
      rw [nodesNoFun_metrics (visitNode st func) args h.2,
        nodeNoFun_metrics st func h.1]
  | st, .binOp l op r ln => by
      intro h
      simp only [nodeNoFun, Bool.and_eq_true] at h
      simp only [visitNode]
      rw [nodeNoFun_metrics (visitNode st l) r h.2, nodeNoFun_metrics st l h.1]
  | st, .attribute v a ln => by
      intro h
      simp only [nodeNoFun] at h
      simpa [visitNode] using nodeNoFun_metrics st v h
  | st, .name i ln => by
      intro h
      simp [visitNode]
  | st, .constant v ln => by
      intro h
      simp [visitNode]
  | st, .other cs => by
      intro h
      simp only [nodeNoFun] at h
      simpa [visitNode] using nodesNoFun_metrics st cs h
theorem nodesNoFun_metrics : ∀ (st : VState) (ns : PyNodes), nodesNoFun ns = true →
    (visitNodes st ns).metrics = st.metrics
  | st, .nil => by
      intro h
      simp [visitNodes]
  | st, .cons n ns => by
      intro h
      simp only [nodesNoFun, Bool.and_eq_true] at h
      simp only [visitNodes]
      rw [nodesNoFun_metrics (visitNode st n) ns h.2, nodeNoFun_metrics st n h.1]
end

mutual
theorem nodeNoFun_own : ∀ (b : Bool) (n : PyNode), nodeNoFun n = true →
    nodeOwn b n = nodeDecisions b n
  | b, .functionDef nm ln body => by
      intro h
      simp [nodeNoFun] at h
  | b, .classDef nm ln body => by
      intro h
      simp only [nodeNoFun] at h
      simp only [nodeOwn, nodeDecisions]
      exact nodesNoFun_own b body h
  | b, .ifStmt ln cs => by
      intro h
      simp only [nodeNoFun] at h
      simp only [nodeOwn, nodeDecisions, nodesNoFun_own b cs h]
  | b, .whileStmt ln cs => by
      intro h
      simp only [nodeNoFun] at h
      simp only [nodeOwn, nodeDecisions, nodesNoFun_own b cs h]
  | b, .forStmt ln cs => by
      intro h
      simp only [nodeNoFun] at h
      simp only [nodeOwn, nodeDecisions, nodesNoFun_own b cs h]
  | b, .exceptHandler et ln body => by
      intro h
      simp only [nodeNoFun] at h
      simp only [nodeOwn, nodeDecisions, nodesNoFun_own b body h]
  | b, .returnStmt ln cs => by
      intro h
      simp only [nodeNoFun] at h
      simp only [nodeOwn, nodeDecisions, nodesNoFun_own b cs h]
  | b, .boolOp op ln cs => by
      intro h
      simp only [nodeNoFun] at h
      simp only [nodeOwn, nodeDecisions, nodesNoFun_own b cs h]
  | b, .assign targets value ln => by
      intro h
      simp only [nodeNoFun, Bool.and_eq_true] at h
      simp only [nodeOwn, nodeDecisions, nodesNoFun_own b targets h.1,
        nodeNoFun_own b value h.2]
  | b, .call func args ln => by
      intro h
      simp only [nodeNoFun, Bool.and_eq_true] at h
      simp only [nodeOwn, nodeDecisions, nodeNoFun_own b func h.1,
        nodesNoFun_own b args h.2]
  | b, .binOp l op r ln => by
      intro h
      simp only [nodeNoFun, Bool.and_eq_true] at h
      simp only [nodeOwn, nodeDecisions, nodeNoFun_own b l h.1, nodeNoFun_own b r h.2]
  | b, .attribute v a ln => by
      intro h
      simp only [nodeNoFun] at h
      simp only [nodeOwn, nodeDecisions, nodeNoFun_own b v h]
  | b, .name i ln => by
      intro h
      simp [nodeOwn, nodeDecisions]
  | b, .constant v ln => by
      intro h
      simp [nodeOwn, nodeDecisions]
  | b, .other cs => by
      intro h
      simp only [nodeNoFun] at h
      simp only [nodeOwn, nodeDecisions, nodesNoFun_own b cs h]
theorem nodesNoFun_own : ∀ (b : Bool) (ns : PyNodes), nodesNoFun ns = true →
    nodesOwn b ns = nodesDecisions b ns
  | b, .nil => by
      intro h
      simp [nodesOwn, nodesDecisions]
  | b, .cons n ns => by
      intro h
      simp only [nodesNoFun, Bool.and_eq_true] at h
      simp only [nodesOwn, nodesDecisions, nodeNoFun_own b n h.1, nodesNoFun_own b ns h.2]
end

theorem findRuns_length : ∀ (rest revRun run : List DecisionPoint),
    run ∈ findRuns revRun rest → minClusterSize ≤ run.length
  | [], revRun, run => by
      intro h
      simp only [findRuns] at h
      split at h
      · next hlen =>
          simp only [List.mem_singleton] at h
          subst h
          simpa using hlen
      · simp at h
  | p :: rest, revRun, run => by
      intro h
      match revRun with
      | [] =>
          exact findRuns_length rest [p] run (by simpa [findRuns] using h)
      | lastp :: tl =>
          simp only [findRuns] at h
          split at h
          · exact findRuns_length rest _ run h
          · rw [List.mem_append] at h
            rcases h with h1 | h2
            · split at h1
              · next hlen =>
                  simp only [List.mem_singleton] at h1
                  subst h1
                  simpa using hlen
              · simp at h1
            · exact findRuns_length rest [p] run h2

theorem findRuns_chain : ∀ (rest revRun : List DecisionPoint),
    List.Chain' gapOK revRun.reverse →
    ∀ run ∈ findRuns revRun rest, List.Chain' gapOK run
  | [], revRun => by
      intro hc run h
      simp only [findRuns] at h
      split at h
      · simp only [List.mem_singleton] at h
        subst h
        exact hc
      · simp at h
  | p :: rest, revRun => by
      intro hc run h
      match revRun with
      | [] =>
          refine findRuns_chain rest [p] (by simp) run (by simpa [findRuns] using h)
      | lastp :: tl =>
          simp only [findRuns] at h
          split at h
          · next hgap =>
              refine findRuns_chain rest (p :: lastp :: tl) ?_ run h
              rw [List.reverse_cons, List.chain'_append]
              refine ⟨hc, List.chain'_singleton p, ?_⟩
              intro x hx y hy
              simp only [List.getLast?_reverse] at hx
              simp only [List.head?_cons, Option.mem_some_iff] at hx hy
              subst hx
              subst hy
              exact hgap
          · rw [List.mem_append] at h
            rcases h with h1 | h2
            · split at h1
              · simp only [List.mem_singleton] at h1
                subst h1
                exact hc
              · simp at h1
            · exact findRuns_chain rest [p] (by simp) run h2

theorem findRuns_src : ∀ (rest revRun run : List DecisionPoint),
    run ∈ findRuns revRun rest → ∀ q ∈ run, q ∈ revRun ∨ q ∈ rest
  | [], revRun, run => by
      intro h q hq
      simp only [findRuns] at h
      split at h
      · simp only [List.mem_singleton] at h
        subst h
        exact Or.inl (List.mem_reverse.mp hq)
      · simp at h
  | p :: rest, revRun, run => by
      intro h q hq
      match revRun with
      | [] =>
          have := findRuns_src rest [p] run (by simpa [findRuns] using h) q hq
          rcases this with h1 | h2
          · simp only [List.mem_singleton] at h1
            subst h1
            exact Or.inr (List.mem_cons_self _ _)
          · exact Or.inr (List.mem_cons_of_mem _ h2)
      | lastp :: tl =>
          simp only [findRuns] at h
          split at h
          · have := findRuns_src rest (p :: lastp :: tl) run h q hq
            rcases this with h1 | h2
            · rcases List.mem_cons.mp h1 with h3 | h4
              · subst h3
                exact Or.inr (List.mem_cons_self _ _)
              · exact Or.inl h4
            · exact Or.inr (List.mem_cons_of_mem _ h2)
          · rw [List.mem_append] at h
            rcases h with h1 | h2
            · split at h1
              · simp only [List.mem_singleton] at h1
                subst h1
                exact Or.inl (List.mem_reverse.mp hq)
              · simp at h1
            · have := findRuns_src rest [p] run h2 q hq
              rcases this with h1 | h2
              · simp only [List.mem_singleton] at h1
                subst h1
                exact Or.inr (List.mem_cons_self _ _)
              · exact Or.inr (List.mem_cons_of_mem _ h2)

theorem findRuns_sep : ∀ (rest revRun : List DecisionPoint),
    List.Pairwise lineRel (revRun.reverse ++ rest) →
    List.Pairwise runSep (findRuns revRun rest)
  | [], revRun => by
      intro hp
      simp only [findRuns]
      split
      · exact List.pairwise_singleton _ _
      · exact List.Pairwise.nil
  | p :: rest, revRun => by
      intro hp
      match revRun with
      | [] =>
          simp only [findRuns]
          exact findRuns_sep rest [p] (by simpa using hp)
      | lastp :: tl =>
          simp only [findRuns]
          split
          · next hgap =>
              refine findRuns_sep rest (p :: lastp :: tl) ?_
              simp only [List.reverse_cons, List.append_assoc, List.singleton_append] at hp ⊢
              exact hp
          · next hgap =>
              have hrest : List.Pairwise lineRel ([p] ++ rest) := by
                refine List.Pairwise.sublist ?_ hp
                exact List.sublist_append_right ((lastp :: tl).reverse) (p :: rest)
              have ih := findRuns_sep rest [p] hrest
              split
              · next hlen =>
                  rw [List.singleton_append, List.pairwise_cons]
                  refine ⟨?_, ih⟩
                  intro s hs a ha b hb
                  rw [List.pairwise_append] at hp
                  obtain ⟨hp1, hp2, hp3⟩ := hp
                  have hb2 : b ∈ [p] ∨ b ∈ rest := findRuns_src rest [p] s hs b hb
                  have step1 : a.line ≤ lastp.line := by
                    rw [List.reverse_cons, List.pairwise_append] at hp1
                    obtain ⟨_, _, hp13⟩ := hp1
                    rw [List.reverse_cons, List.mem_append] at ha
                    rcases ha with ha1 | ha2
                    · exact hp13 a ha1 lastp (List.mem_singleton_self _)
                    · simp only [List.mem_singleton] at ha2
                      subst ha2
                      exact Nat.le_refl _
                  have step2 : lastp.line < p.line := by
                    simp only [gapOK, windowSize] at hgap
                    omega
                  have step3 : p.line ≤ b.line := by
                    rcases hb2 with hb3 | hb4
                    · simp only [List.mem_singleton] at hb3
                      subst hb3
                      exact Nat.le_refl _
                    · rw [List.pairwise_cons] at hp2
                      exact hp2.1 b hb4
                  omega
              · simp only [List.nil_append]
                exact ih

theorem sortByLine_sorted (points : List DecisionPoint) :
    List.Pairwise lineRel (sortByLine points) :=
  List.sorted_insertionSort lineRel points

/-- C4: severity is `critical` iff the critical threshold is reached,
`warning` iff the complexity is between the thresholds, `normal` otherwise;
the hotspot list is a permutation of the non-normal metrics' hotspot dicts
and is sorted by descending complexity with ties broken by line number. -/
theorem severity_hotspots_spec (wT cT : Nat) (metrics : List ComplexityMetric) :
    (∀ x : Nat, determineSeverity wT cT x = "critical" ↔ cT ≤ x) ∧
    (∀ x : Nat, determineSeverity wT cT x = "warning" ↔ wT ≤ x ∧ x < cT) ∧
    (∀ x : Nat, determineSeverity wT cT x = "normal" ↔ x < wT ∧ x < cT) ∧
    List.Perm (identifyHotspots wT cT metrics)
      ((metrics.filter fun m => !(determineSeverity wT cT m.complexity == "normal")).map
        (mkHotspot wT cT)) ∧
    List.Pairwise hotspotRel (identifyHotspots wT cT metrics) := by
  refine ⟨?_, ?_, ?_, ?_, ?_⟩
  · intro x
    unfold determineSeverity
    split_ifs with h1 h2 <;> simp <;> omega
  · intro x
    unfold determineSeverity
    split_ifs with h1 h2 <;> simp <;> omega
  · intro x
    unfold determineSeverity
    split_ifs with h1 h2 <;> simp <;> omega
  · exact List.perm_insertionSort _ _
  · exact List.sorted_insertionSort hotspotRel _

/-- C5: every emitted cluster arises from a closed run of size at least 3
whose consecutive line gaps are at most the window; emitted clusters have
size at least 3 and pairwise disjoint line ranges; and a point whose gap to
the current run exceeds the window closes that run and starts a new one. -/
theorem cluster_scan_valid (points : List DecisionPoint) :
    findDecisionClusters points = (findRuns [] (sortByLine points)).map mkCluster ∧
    (∀ run ∈ findRuns [] (sortByLine points),
      minClusterSize ≤ run.length ∧ List.Chain' gapOK run) ∧
    (∀ c ∈ findDecisionClusters points, minClusterSize ≤ c.size) ∧
    List.Pairwise (fun c d => c.end_line < d.start_line) (findDecisionClusters points) ∧
    (∀ (lastp : DecisionPoint) (tl : List DecisionPoint) (p : DecisionPoint)
        (rest : List DecisionPoint), ¬ gapOK lastp p →
      findRuns (lastp :: tl) (p :: rest) =
        (if minClusterSize ≤ (lastp :: tl).length then [(lastp :: tl).reverse] else []) ++
          findRuns [p] rest) := by
  refine ⟨rfl, ?_, ?_, ?_, ?_⟩
  · intro run hrun
    refine ⟨findRuns_length _ _ _ hrun, ?_⟩
    exact findRuns_chain _ [] (by simp) run hrun
  · intro c hc
    unfold findDecisionClusters at hc
    rw [List.mem_map] at hc
    obtain ⟨run, hrun, hmk⟩ := hc
    subst hmk
    simpa [mkCluster] using findRuns_length _ _ _ hrun
  · unfold findDecisionClusters
    rw [List.pairwise_map]
    have hp := findRuns_sep (sortByLine points) [] (by simpa using sortByLine_sorted points)
    refine hp.imp_of_mem ?_
    intro r s hr hs hsep
    have hr3 := findRuns_length _ _ _ hr
    have hs3 := findRuns_length _ _ _ hs
    match r, s with
    | [], _ => simp [minClusterSize] at hr3
    | _, [] => simp [minClusterSize] at hs3
    | a :: r', b :: s' =>
      have hlast : (a :: r').getLast? = some ((a :: r').getLast (List.cons_ne_nil a r')) :=
        List.getLast?_eq_getLast _ _
      simp only [mkCluster, hlast, List.head?_cons, Option.map_some, Option.getD_some]
      exact hsep _ (List.getLast_mem _) b (List.mem_cons_self b s')
  · intro lastp tl p rest hgap
    simp only [gapOK] at hgap
    simp only [findRuns]
    rw [if_neg hgap]

/-- Witness for `cluster_scan_valid` at the concrete points `c5pts`. -/
theorem cluster_scan_valid_witness :
    (minClusterSize ≤ c5run.length ∧ List.Chain' gapOK c5run) ∧
    minClusterSize ≤ (mkCluster c5run).size ∧
    findRuns [⟨"if", 4⟩] [⟨"return", 20⟩] =
      (if minClusterSize ≤ ([⟨"if", 4⟩] : List DecisionPoint).length
        then [([(⟨"if", 4⟩ : DecisionPoint)] : List DecisionPoint).reverse] else []) ++
        findRuns [⟨"return", 20⟩] [] := by
  have h := cluster_scan_valid c5pts
  exact ⟨h.2.1 c5run (by decide), h.2.2.1 (mkCluster c5run) (by decide),
    h.2.2.2.2 ⟨"if", 4⟩ [] ⟨"return", 20⟩ [] (by decide)⟩

/-- C1 (amended): the metric emitted when traversal exits a function has
`complexity = 1 + ` the number of decision points recorded in the function's
entire subtree (nested functions included), while its `decision_points` list
holds exactly the points recorded against the innermost context; hence
`complexity = 1 + |decision_points|` whenever the body contains no nested
function definition. -/
theorem function_metric_spec (st : VState) (nm : String) (ln : Nat) (body : PyNodes) :
    (∃ m : ComplexityMetric,
      (visitNode st (.functionDef nm ln body)).metrics.getLast? = some m ∧
      m.complexity = 1 + nodesDecisions true body ∧
      m.decision_points.length = nodesOwn true body) ∧
    (nodesNoFun body = true →
      ∃ m : ComplexityMetric,
        (visitNode st (.functionDef nm ln body)).metrics.getLast? = some m ∧
        m.complexity = 1 + m.decision_points.length) := by
  obtain ⟨ms, tc, cf, cc, nd, ap, cp⟩ := st
  have h := visitNodes_spec ⟨ms, tc, some nm, cc, nd + 1, ap, []⟩ body
  simp only [Option.isSome_some, List.length_nil] at h
  obtain ⟨h1, h2, h3, h4, h5, h6⟩ := h
  have hlast :
      (visitNode ⟨ms, tc, cf, cc, nd, ap, cp⟩ (.functionDef nm ln body)).metrics.getLast?
        = some ⟨nm,
            (visitNodes ⟨ms, tc, some nm, cc, nd + 1, ap, []⟩ body).total_complexity - tc + 1,
            ln, "function",
            (visitNodes ⟨ms, tc, some nm, cc, nd + 1, ap, []⟩ body).nested_depth,
            (visitNodes ⟨ms, tc, some nm, cc, nd + 1, ap, []⟩ body).current_decision_points⟩ := by
    simp only [visitNode]
    exact List.getLast?_concat _
  refine ⟨⟨_, hlast, ?_, ?_⟩, fun hnf => ⟨_, hlast, ?_⟩⟩
  · dsimp only
    omega
  · dsimp only
    omega
  · have hown := nodesNoFun_own true body hnf
    dsimp only
    omega

/-- Witness for `function_metric_spec` on a function with one `if` and no
nested functions. -/
theorem function_metric_spec_witness :
    (∃ m : ComplexityMetric,
      (visitNode initVState (.functionDef "f" 1 c1Body)).metrics.getLast? = some m ∧
      m.complexity = 1 + nodesDecisions true c1Body ∧
      m.decision_points.length = nodesOwn true c1Body) ∧
    (∃ m : ComplexityMetric,
      (visitNode initVState (.functionDef "f" 1 c1Body)).metrics.getLast? = some m ∧
      m.complexity = 1 + m.decision_points.length) := by
  have h := function_metric_spec initVState "f" 1 c1Body
  exact ⟨h.1, h.2 (by decide)⟩

/-- Counterexample to C1 as stated: in `c1CexTree` the outer function's
metric has complexity 2 but an empty `decision_points` list, because the
nested function's decision point raises the running total yet is recorded
against the inner context only. -/
theorem function_metric_counterexample :
    ∃ m ∈ (runVisitor c1CexTree).metrics,
      ¬ m.complexity = 1 + m.decision_points.length := by decide

/-- C2: the overall complexity always equals one plus the total number of
recorded decision points, and a unit with no conditionals, loops, handlers,
boolean operators, or returns-inside-functions has overall complexity 1. -/
theorem overall_complexity_spec (module : PyNodes) :
    (runVisitor module).total_complexity
      = 1 + (runVisitor module).all_decision_points.length ∧
    (nodesDecisions false module = 0 → (runVisitor module).total_complexity = 1) := by
  have h := visitNodes_spec initVState module
  simp only [initVState, Option.isSome_none, List.length_nil] at h
  obtain ⟨h1, h2, h3, h4, h5, h6⟩ := h
  simp only [runVisitor, initVState]
  omega

/-- Witness for `overall_complexity_spec` on the decision-free `x = 1`. -/
theorem overall_complexity_spec_witness :
    (runVisitor c2Module).total_complexity
      = 1 + (runVisitor c2Module).all_decision_points.length ∧
    (runVisitor c2Module).total_complexity = 1 := by
  have h := overall_complexity_spec c2Module
  exact ⟨h.1, h.2 (by decide)⟩

/-- C9: a return statement outside any function context records no decision
point and leaves the total unchanged (only its children are visited), while
a return inside a function context records exactly one `"return"` decision
point against the current context before its children are visited. -/
theorem return_counting_spec (st : VState) (ln : Nat) (cs : PyNodes) :
    (st.current_function = none → visitNode st (.returnStmt ln cs) = visitNodes st cs) ∧
    (∀ fn : String, st.current_function = some fn →
      visitNode st (.returnStmt ln cs) = visitNodes (addDecisionPoint st ln "return") cs ∧
      (addDecisionPoint st ln "return").current_decision_points
        = st.current_decision_points ++ [⟨"return", ln⟩] ∧
      (addDecisionPoint st ln "return").all_decision_points
        = st.all_decision_points ++ [⟨"return", ln⟩] ∧
      (addDecisionPoint st ln "return").total_complexity = st.total_complexity + 1) := by
  obtain ⟨ms, tc, cf, cc, nd, ap, cp⟩ := st
  constructor
  · intro h
    dsimp only at h
    subst h
    simp [visitNode]
  · intro fn h
    dsimp only at h
    subst h
    exact ⟨by simp [visitNode], rfl, rfl, rfl⟩

/-- Witness for `return_counting_spec`: a module-level return vs. a return
inside a function context. -/
theorem return_counting_spec_witness :
    visitNode initVState (.returnStmt 1 .nil) = visitNodes initVState .nil ∧
    visitNode ⟨[], 1, some "f", none, 1, [], []⟩ (.returnStmt 2 .nil)
      = visitNodes (addDecisionPoint ⟨[], 1, some "f", none, 1, [], []⟩ 2 "return") .nil := by
  refine ⟨(return_counting_spec initVState 1 .nil).1 (by decide), ?_⟩
  exact ((return_counting_spec ⟨[], 1, some "f", none, 1, [], []⟩ 2 .nil).2 "f" (by decide)).1

theorem bumpCount_ne_nil (counts : List (String × Nat)) (t : String) :
    bumpCount counts t ≠ [] := by
  cases counts with
  | nil => simp [bumpCount]
  | cons kc rest =>
      obtain ⟨k, c⟩ := kc
      simp only [bumpCount]
      split_ifs <;> simp

theorem foldl_bump_ne_nil : ∀ (l : List DecisionPoint) (acc : List (String × Nat)),
    acc ≠ [] → l.foldl (fun acc p => bumpCount acc p.type) acc ≠ []
  | [], acc => fun h => by simpa using h
  | p :: l, acc => fun _ => by
      simp only [List.foldl_cons]
      exact foldl_bump_ne_nil l _ (bumpCount_ne_nil _ _)

theorem typeCounts_ne_nil (points : List DecisionPoint) (h : points ≠ []) :
    typeCounts points ≠ [] := by
  cases points with
  | nil => exact absurd rfl h
  | cons p ps =>
      unfold typeCounts
      simp only [List.foldl_cons]
      exact foldl_bump_ne_nil ps _ (bumpCount_ne_nil [] p.type)

theorem distributions_empty_iff (points : List DecisionPoint) :
    (summarizeDecisionPoints points).distributions = [] ↔ points = [] := by
  constructor
  · intro h
    by_contra hp
    simp only [summarizeDecisionPoints, List.map_eq_nil_iff] at h
    exact typeCounts_ne_nil points hp h
  · intro h
    subst h
    rfl

/-- C10 (amended): on a tree without function definitions the analyzer still
produces the full report: average function complexity 0, max complexity 0,
and a decision point summary whose `total_points` equals the number of
decision points actually recorded at module level — with an empty
distribution table exactly when there are none (both directions).  (The
claimed unconditional `total_points = 0` fails: see the counterexample.) -/
theorem no_function_report_spec (module : PyNodes) (h : nodesNoFun module = true) :
    calculateAverage (((runVisitor module).metrics.filter fun m => m.type == "function").map
      ComplexityMetric.complexity) = 0 ∧
    maxComplexity (runVisitor module).metrics = 0 ∧
    (summarizeDecisionPoints (runVisitor module).all_decision_points).total_points
      = (runVisitor module).all_decision_points.length ∧
    ((summarizeDecisionPoints (runVisitor module).all_decision_points).distributions = []
      ↔ (runVisitor module).all_decision_points = []) := by
  have hm : (runVisitor module).metrics = [] := by
    simpa [runVisitor, initVState] using nodesNoFun_metrics initVState module h
  refine ⟨?_, ?_, rfl, distributions_empty_iff _⟩
  · rw [hm]
    simp [calculateAverage]
  · rw [hm]
    simp [maxComplexity]

/-- Witness for `no_function_report_spec` on the function-free `x = 1`. -/
theorem no_function_report_spec_witness :
    calculateAverage (((runVisitor c2Module).metrics.filter fun m => m.type == "function").map
      ComplexityMetric.complexity) = 0 ∧
    maxComplexity (runVisitor c2Module).metrics = 0 ∧
    (summarizeDecisionPoints (runVisitor c2Module).all_decision_points).total_points
      = (runVisitor c2Module).all_decision_points.length ∧
    (summarizeDecisionPoints (runVisitor c2Module).all_decision_points).distributions
      = [] := by
  have h := no_function_report_spec c2Module (by decide)
  exact ⟨h.1, h.2.1, h.2.2.1, h.2.2.2.mpr (by decide)⟩

/-- Counterexample to C10 as stated: a module-level `if` has no function
definitions, yet the summary records one decision point with a nonempty
distribution, not `total_points = 0`. -/
theorem no_function_report_counterexample :
    nodesNoFun c10CexModule = true ∧
    (summarizeDecisionPoints (runVisitor c10CexModule).all_decision_points).total_points
      ≠ 0 ∧
    (summarizeDecisionPoints (runVisitor c10CexModule).all_decision_points).distributions
      ≠ [] := by decide

/-- C3 (amended): for both analyzers a parse failure returns exactly the
single-field error result with message `"Invalid Python syntax"` (not
`"Invalid syntax"`), and any other internal fault returns exactly
`{'error': 'Analysis failed'}`; the error constructor carries nothing but
the message, so no partial metrics, findings, or recommendations exist. -/
theorem error_result_spec (wT cT : Nat) :
    analyzeCode wT cT .parseFailed = .error "Invalid Python syntax" ∧
    analyzeCode wT cT .otherFault = .error "Analysis failed" ∧
    safetyAnalyzeCode .parseFailed = .error "Invalid Python syntax" ∧
    safetyAnalyzeCode .otherFault = .error "Analysis failed" :=
  ⟨rfl, rfl, rfl, rfl⟩

/-- Counterexample to C3 as stated: the parse-failure message is not the
claimed `"Invalid syntax"`. -/
theorem error_result_counterexample :
    analyzeCode thresholdWarningDefault thresholdCriticalDefault .parseFailed
      ≠ ComplexityResult.error "Invalid syntax" ∧
    safetyAnalyzeCode .parseFailed ≠ SafetyResult.error "Invalid syntax" := by decide

theorem credScanTargets_eq : ∀ (ts : PyNodes) (st : CVState) (value : PyNode) (ln : Nat),
    credScanTargets st value ln ts =
      { st with
        has_hardcoded_credentials :=
          st.has_hardcoded_credentials || !(credScanLines value ln ts).isEmpty
        credential_locations := st.credential_locations ++ credScanLines value ln ts }
  | .nil, st, value, ln => by
      simp [credScanTargets, credScanLines]
  | .cons t ts, st, value, ln => by
      cases t <;>
        (simp only [credScanTargets, credScanLines, credScanTargets_eq ts, List.nil_append];
          try rfl)
      case name id ln2 =>
        by_cases hc : credMatch id
        · by_cases hv : valueIsConst value
          · simp [hc, hv, credScanTargets_eq ts, List.append_assoc]
          · simp [hc, hv, credScanTargets_eq ts]
        · simp [hc, credScanTargets_eq ts]

theorem callCheck_pres (st : CVState) (f : PyNode) (ln : Nat) :
    (callCheck st f ln).has_hardcoded_credentials = st.has_hardcoded_credentials ∧
    (callCheck st f ln).credential_locations = st.credential_locations ∧
    (callCheck st f ln).has_unsafe_file_ops = st.has_unsafe_file_ops ∧
    (callCheck st f ln).file_op_locations = st.file_op_locations := by
  cases f <;> first
    | (simp only [callCheck]; split_ifs <;> exact ⟨rfl, rfl, rfl, rfl⟩)
    | simp [callCheck]

theorem binOpCheck_pres (st : CVState) (l : PyNode) (op : BinOpKind) (r : PyNode) (ln : Nat) :
    (binOpCheck st l op r ln).has_hardcoded_credentials = st.has_hardcoded_credentials ∧
    (binOpCheck st l op r ln).credential_locations = st.credential_locations ∧
    (binOpCheck st l op r ln).has_unsafe_file_ops = st.has_unsafe_file_ops ∧
    (binOpCheck st l op r ln).file_op_locations = st.file_op_locations ∧
    (binOpCheck st l op r ln).has_unsafe_deserialization = st.has_unsafe_deserialization ∧
    (binOpCheck st l op r ln).deserialization_locations = st.deserialization_locations := by
  cases op <;> first
    | (simp only [binOpCheck]; split_ifs <;> exact ⟨rfl, rfl, rfl, rfl, rfl, rfl⟩)
    | simp [binOpCheck]

theorem exceptCheck_pres (st : CVState) (et : ExceptKind) (ln : Nat) :
    (exceptCheck st et ln).has_hardcoded_credentials = st.has_hardcoded_credentials ∧
    (exceptCheck st et ln).credential_locations = st.credential_locations ∧
    (exceptCheck st et ln).has_unsafe_file_ops = st.has_unsafe_file_ops ∧
    (exceptCheck st et ln).file_op_locations = st.file_op_locations ∧
    (exceptCheck st et ln).has_unsafe_deserialization = st.has_unsafe_deserialization ∧
    (exceptCheck st et ln).deserialization_locations = st.deserialization_locations := by
  cases et <;> first
    | (simp only [exceptCheck]; split_ifs <;> exact ⟨rfl, rfl, rfl, rfl, rfl, rfl⟩)
    | simp [exceptCheck]

theorem isEmpty_append {α : Type} (l1 l2 : List α) :
    (l1 ++ l2).isEmpty = (l1.isEmpty && l2.isEmpty) := by
  cases l1 <;> cases l2 <;> simp

mutual
theorem svisitNode_cred : ∀ (st : CVState) (n : PyNode),
    (svisitNode st n).credential_locations = st.credential_locations ++ credLinesNode n ∧
    (svisitNode st n).has_hardcoded_credentials
      = (st.has_hardcoded_credentials || !(credLinesNode n).isEmpty)
  | st, .assign targets value ln => by
      have h0 := credScanTargets_eq targets st value ln
      have h1 := svisitNodes_cred (credScanTargets st value ln targets) targets
      have h2 := svisitNode_cred (svisitNodes (credScanTargets st value ln targets) targets) value
      simp only [svisitNode, credLinesNode]
      rw [h2.1, h2.2, h1.1, h1.2, h0]
      refine ⟨?_, ?_⟩
      · simp [List.append_assoc]
      · simp [isEmpty_append, Bool.or_assoc]
  | st, .call func args ln => by
      have h0 := callCheck_pres st func ln
      have h1 := svisitNode_cred (callCheck st func ln) func
      have h2 := svisitNodes_cred (svisitNode (callCheck st func ln) func) args
      simp only [svisitNode, credLinesNode]
      rw [h2.1, h2.2, h1.1, h1.2, h0.1, h0.2.1]
      refine ⟨?_, ?_⟩
      · simp [List.append_assoc]
      · simp [isEmpty_append, Bool.or_assoc]
  | st, .binOp l op r ln => by
      have h0 := binOpCheck_pres st l op r ln
      have h1 := svisitNode_cred (binOpCheck st l op r ln) l
      have h2 := svisitNode_cred (svisitNode (binOpCheck st l op r ln) l) r
      simp only [svisitNode, credLinesNode]
      rw [h2.1, h2.2, h1.1, h1.2, h0.1, h0.2.1]
      refine ⟨?_, ?_⟩
      · simp [List.append_assoc]
      · simp [isEmpty_append, Bool.or_assoc]
  | st, .exceptHandler et ln body => by
      have h0 := exceptCheck_pres st et ln
      have h1 := svisitNodes_cred (exceptCheck st et ln) body
      simp only [svisitNode, credLinesNode]
      rw [h1.1, h1.2, h0.1, h0.2.1]
      exact ⟨rfl, rfl⟩
  | st, .functionDef nm ln body => by
      simpa only [svisitNode, credLinesNode] using svisitNodes_cred st body
  | st, .classDef nm ln body => by
      simpa only [svisitNode, credLinesNode] using svisitNodes_cred st body
  | st, .ifStmt ln cs => by
      simpa only [svisitNode, credLinesNode] using svisitNodes_cred st cs
  | st, .whileStmt ln cs => by
      simpa only [svisitNode, credLinesNode] using svisitNodes_cred st cs
  | st, .forStmt ln cs => by
      simpa only [svisitNode, credLinesNode] using svisitNodes_cred st cs
  | st, .returnStmt ln cs => by
      simpa only [svisitNode, credLinesNode] using svisitNodes_cred st cs
  | st, .boolOp op ln cs => by
      simpa only [svisitNode, credLinesNode] using svisitNodes_cred st cs
  | st, .attribute v a ln => by
      simpa only [svisitNode, credLinesNode] using svisitNode_cred st v
  | st, .name i ln => by
      simp [svisitNode, credLinesNode]
  | st, .constant v ln => by
      simp [svisitNode, credLinesNode]
  | st, .other cs => by
      simpa only [svisitNode, credLinesNode] using svisitNodes_cred st cs
theorem svisitNodes_cred : ∀ (st : CVState) (ns : PyNodes),
    (svisitNodes st ns).credential_locations = st.credential_locations ++ credLinesNodes ns ∧
    (svisitNodes st ns).has_hardcoded_credentials
      = (st.has_hardcoded_credentials || !(credLinesNodes ns).isEmpty)
  | st, .nil => by
      simp [svisitNodes, credLinesNodes]
  | st, .cons n ns => by
      have h1 := svisitNode_cred st n
      have h2 := svisitNodes_cred (svisitNode st n) ns
      simp only [svisitNodes, credLinesNodes]
      rw [h2.1, h2.2, h1.1, h1.2]
      refine ⟨?_, ?_⟩
      · simp [List.append_assoc]
      · simp [isEmpty_append, Bool.or_assoc]
end

mutual
theorem svisitNode_fileop : ∀ (st : CVState) (n : PyNode),
    (svisitNode st n).has_unsafe_file_ops = st.has_unsafe_file_ops ∧
    (svisitNode st n).file_op_locations = st.file_op_locations
  | st, .assign targets value ln => by
      have h0 := credScanTargets_eq targets st value ln
      have h1 := svisitNodes_fileop (credScanTargets st value ln targets) targets
      have h2 := svisitNode_fileop (svisitNodes (credScanTargets st value ln targets) targets) value
      simp only [svisitNode]
      rw [h2.1, h2.2, h1.1, h1.2, h0]
      exact ⟨rfl, rfl⟩
  | st, .call func args ln => by
      have h0 := callCheck_pres st func ln
      have h1 := svisitNode_fileop (callCheck st func ln) func
      have h2 := svisitNodes_fileop (svisitNode (callCheck st func ln) func) args
      simp only [svisitNode]
      rw [h2.1, h2.2, h1.1, h1.2, h0.2.2.1, h0.2.2.2]
      exact ⟨rfl, rfl⟩
  | st, .binOp l op r ln => by
      have h0 := binOpCheck_pres st l op r ln
      have h1 := svisitNode_fileop (binOpCheck st l op r ln) l
      have h2 := svisitNode_fileop (svisitNode (binOpCheck st l op r ln) l) r
      simp only [svisitNode]
      rw [h2.1, h2.2, h1.1, h1.2, h0.2.2.1, h0.2.2.2.1]
      exact ⟨rfl, rfl⟩
  | st, .exceptHandler et ln body => by
      have h0 := exceptCheck_pres st et ln
      have h1 := svisitNodes_fileop (exceptCheck st et ln) body
      simp only [svisitNode]
      rw [h1.1, h1.2, h0.2.2.1, h0.2.2.2.1]
      exact ⟨rfl, rfl⟩
  | st, .functionDef nm ln body => by
      simpa only [svisitNode] using svisitNodes_fileop st body
  | st, .classDef nm ln body => by
      simpa only [svisitNode] using svisitNodes_fileop st body
  | st, .ifStmt ln cs => by
      simpa only [svisitNode] using svisitNodes_fileop st cs
  | st, .whileStmt ln cs => by
      simpa only [svisitNode] using svisitNodes_fileop st cs
  | st, .forStmt ln cs => by
      simpa only [svisitNode] using svisitNodes_fileop st cs
  | st, .returnStmt ln cs => by
      simpa only [svisitNode] using svisitNodes_fileop st cs
  | st, .boolOp op ln cs => by
      simpa only [svisitNode] using svisitNodes_fileop st cs
  | st, .attribute v a ln => by
      simpa only [svisitNode] using svisitNode_fileop st v
  | st, .name i ln => by
      simp [svisitNode]
  | st, .constant v ln => by
      simp [svisitNode]
  | st, .other cs => by
      simpa only [svisitNode] using svisitNodes_fileop st cs
theorem svisitNodes_fileop : ∀ (st : CVState) (ns : PyNodes),
    (svisitNodes st ns).has_unsafe_file_ops = st.has_unsafe_file_ops ∧
    (svisitNodes st ns).file_op_locations = st.file_op_locations
  | st, .nil => by
      simp [svisitNodes]
  | st, .cons n ns => by
      have h1 := svisitNode_fileop st n
      have h2 := svisitNodes_fileop (svisitNode st n) ns
      simp only [svisitNodes]
      rw [h2.1, h2.2, h1.1, h1.2]
      exact ⟨rfl, rfl⟩
end

theorem deser_not_called {id : String} (h : id.data.contains '.' = false) :
    deserCallees.contains id = false := by
  have h1 : id ≠ "pickle.loads" := by
    rintro rfl
    exact absurd h (by decide)
  have h2 : id ≠ "yaml.load" := by
    rintro rfl
    exact absurd h (by decide)
  simp [deserCallees, h1, h2]

theorem callCheck_deser (st : CVState) (f : PyNode) (ln : Nat)
    (h : dotFreeNode f = true) :
    (callCheck st f ln).has_unsafe_deserialization = st.has_unsafe_deserialization ∧
    (callCheck st f ln).deserialization_locations = st.deserialization_locations := by
  cases f <;> try exact ⟨rfl, rfl⟩
  case name id ln2 =>
    simp only [dotFreeNode, Bool.not_eq_true'] at h
    simp only [callCheck, deser_not_called h, Bool.false_eq_true, if_false]
    split_ifs <;> exact ⟨rfl, rfl⟩

mutual
theorem svisitNode_deser : ∀ (st : CVState) (n : PyNode), dotFreeNode n = true →
    (svisitNode st n).has_unsafe_deserialization = st.has_unsafe_deserialization ∧
    (svisitNode st n).deserialization_locations = st.deserialization_locations
  | st, .assign targets value ln => by
      intro h
      simp only [dotFreeNode, Bool.and_eq_true] at h
      have h0 := credScanTargets_eq targets st value ln
      have h1 := svisitNodes_deser (credScanTargets st value ln targets) targets h.1
      have h2 := svisitNode_deser (svisitNodes (credScanTargets st value ln targets) targets)
        value h.2
      simp only [svisitNode]
      rw [h2.1, h2.2, h1.1, h1.2, h0]
      exact ⟨rfl, rfl⟩
  | st, .call func args ln => by
      intro h
      simp only [dotFreeNode, Bool.and_eq_true] at h
      have h0 := callCheck_deser st func ln h.1
      have h1 := svisitNode_deser (callCheck st func ln) func h.1
      have h2 := svisitNodes_deser (svisitNode (callCheck st func ln) func) args h.2
      simp only [svisitNode]
      rw [h2.1, h2.2, h1.1, h1.2, h0.1, h0.2]
      exact ⟨rfl, rfl⟩
  | st, .binOp l op r ln => by
      intro h
      simp only [dotFreeNode, Bool.and_eq_true] at h
      have h0 := binOpCheck_pres st l op r ln
      have h1 := svisitNode_deser (binOpCheck st l op r ln) l h.1
      have h2 := svisitNode_deser (svisitNode (binOpCheck st l op r ln) l) r h.2
      simp only [svisitNode]
      rw [h2.1, h2.2, h1.1, h1.2, h0.2.2.2.2.1, h0.2.2.2.2.2]
      exact ⟨rfl, rfl⟩
  | st, .exceptHandler et ln body => by
      intro h
      simp only [dotFreeNode] at h
      have h0 := exceptCheck_pres st et ln
      have h1 := svisitNodes_deser (exceptCheck st et ln) body h
      simp only [svisitNode]
      rw [h1.1, h1.2, h0.2.2.2.2.1, h0.2.2.2.2.2]
      exact ⟨rfl, rfl⟩
  | st, .functionDef nm ln body => by
      intro h
      simp only [dotFreeNode] at h
      simpa only [svisitNode] using svisitNodes_deser st body h
  | st, .classDef nm ln body => by
      intro h
      simp only [dotFreeNode] at h
      simpa only [svisitNode] using svisitNodes_deser st body h
  | st, .ifStmt ln cs => by
      intro h
      simp only [dotFreeNode] at h
      simpa only [svisitNode] using svisitNodes_deser st cs h
  | st, .whileStmt ln cs => by
      intro h
      simp only [dotFreeNode] at h
      simpa only [svisitNode] using svisitNodes_deser st cs h
  | st, .forStmt ln cs => by
      intro h
      simp only [dotFreeNode] at h
      simpa only [svisitNode] using svisitNodes_deser st cs h
  | st, .returnStmt ln cs => by
      intro h
      simp only [dotFreeNode] at h
      simpa only [svisitNode] using svisitNodes_deser st cs h
  | st, .boolOp op ln cs => by
      intro h
      simp only [dotFreeNode] at h
      simpa only [svisitNode] using svisitNodes_deser st cs h
  | st, .attribute v a ln => by
      intro h
      simp only [dotFreeNode] at h
      simpa only [svisitNode] using svisitNode_deser st v h
  | st, .name i ln => by
      intro h
      simp [svisitNode]
  | st, .constant v ln => by
      intro h
      simp [svisitNode]
  | st, .other cs => by
      intro h
      simp only [dotFreeNode] at h
      simpa only [svisitNode] using svisitNodes_deser st cs h
theorem svisitNodes_deser : ∀ (st : CVState) (ns : PyNodes), dotFreeNodes ns = true →
    (svisitNodes st ns).has_unsafe_deserialization = st.has_unsafe_deserialization ∧
    (svisitNodes st ns).deserialization_locations = st.deserialization_locations
  | st, .nil => by
      intro h
      simp [svisitNodes]
  | st, .cons n ns => by
      intro h
      simp only [dotFreeNodes, Bool.and_eq_true] at h
      have h1 := svisitNode_deser st n h.1
      have h2 := svisitNodes_deser (svisitNode st n) ns h.2
      simp only [svisitNodes]
      rw [h2.1, h2.2, h1.1, h1.2]
      exact ⟨rfl, rfl⟩
end

mutual
theorem credLines_mono : ∀ (n m : PyNode), m ∈ allNodesN n →
    ∀ x ∈ credLinesNode m, x ∈ credLinesNode n
  | .functionDef nm ln body, m => by
      intro hm x hx
      rcases List.mem_cons.mp (by simpa [allNodesN] using hm) with rfl | hm2
      · exact hx
      · simpa [credLinesNode] using credLines_mono_list body m hm2 x hx
  | .classDef nm ln body, m => by
      intro hm x hx
      rcases List.mem_cons.mp (by simpa [allNodesN] using hm) with rfl | hm2
      · exact hx
      · simpa [credLinesNode] using credLines_mono_list body m hm2 x hx
  | .ifStmt ln cs, m => by
      intro hm x hx
      rcases List.mem_cons.mp (by simpa [allNodesN] using hm) with rfl | hm2
      · exact hx
      · simpa [credLinesNode] using credLines_mono_list cs m hm2 x hx
  | .whileStmt ln cs, m => by
      intro hm x hx
      rcases List.mem_cons.mp (by simpa [allNodesN] using hm) with rfl | hm2
      · exact hx
      · simpa [credLinesNode] using credLines_mono_list cs m hm2 x hx
  | .forStmt ln cs, m => by
      intro hm x hx
      rcases List.mem_cons.mp (by simpa [allNodesN] using hm) with rfl | hm2
      · exact hx
      · simpa [credLinesNode] using credLines_mono_list cs m hm2 x hx
  | .exceptHandler et ln body, m => by
      intro hm x hx
      rcases List.mem_cons.mp (by simpa [allNodesN] using hm) with rfl | hm2
      · exact hx
      · simpa [credLinesNode] using credLines_mono_list body m hm2 x hx
  | .returnStmt ln cs, m => by
      intro hm x hx
      rcases List.mem_cons.mp (by simpa [allNodesN] using hm) with rfl | hm2
      · exact hx
      · simpa [credLinesNode] using credLines_mono_list cs m hm2 x hx
  | .boolOp op ln cs, m => by
      intro hm x hx
      rcases List.mem_cons.mp (by simpa [allNodesN] using hm) with rfl | hm2
      · exact hx
      · simpa [credLinesNode] using credLines_mono_list cs m hm2 x hx
  | .assign targets value ln, m => by
      intro hm x hx
      have hm2 : m = PyNode.assign targets value ln ∨
          m ∈ allNodesNs targets ∨ m ∈ allNodesN value := by
        simpa [allNodesN] using hm
      rcases hm2 with rfl | h3 | h4
      · exact hx
      · have := credLines_mono_list targets m h3 x hx
        simp only [credLinesNode, List.mem_append]
        tauto
      · have := credLines_mono value m h4 x hx
        simp only [credLinesNode, List.mem_append]
        tauto
  | .call func args ln, m => by
      intro hm x hx
      have hm2 : m = PyNode.call func args ln ∨
          m ∈ allNodesN func ∨ m ∈ allNodesNs args := by
        simpa [allNodesN] using hm
      rcases hm2 with rfl | h3 | h4
      · exact hx
      · have := credLines_mono func m h3 x hx
        simp only [credLinesNode, List.mem_append]
        tauto
      · have := credLines_mono_list args m h4 x hx
        simp only [credLinesNode, List.mem_append]
        tauto
  | .binOp l op r ln, m => by
      intro hm x hx
      have hm2 : m = PyNode.binOp l op r ln ∨
          m ∈ allNodesN l ∨ m ∈ allNodesN r := by
        simpa [allNodesN] using hm
      rcases hm2 with rfl | h3 | h4
      · exact hx
      · have := credLines_mono l m h3 x hx
        simp only [credLinesNode, List.mem_append]
        tauto
      · have := credLines_mono r m h4 x hx
        simp only [credLinesNode, List.mem_append]
        tauto
  | .attribute v a ln, m => by
      intro hm x hx
      rcases List.mem_cons.mp (by simpa [allNodesN] using hm) with rfl | hm2
      · exact hx
      · simpa [credLinesNode] using credLines_mono v m hm2 x hx
  | .name i ln, m => by
      intro hm x hx
      have hm2 : m = PyNode.name i ln := by simpa [allNodesN] using hm
      subst hm2
      exact hx
  | .constant v ln, m => by
      intro hm x hx
      have hm2 : m = PyNode.constant v ln := by simpa [allNodesN] using hm
      subst hm2
      exact hx
  | .other cs, m => by
      intro hm x hx
      rcases List.mem_cons.mp (by simpa [allNodesN] using hm) with rfl | hm2
      · exact hx
      · simpa [credLinesNode] using credLines_mono_list cs m hm2 x hx
theorem credLines_mono_list : ∀ (ns : PyNodes) (m : PyNode), m ∈ allNodesNs ns →
    ∀ x ∈ credLinesNode m, x ∈ credLinesNodes ns
  | .nil, m => by
      intro hm
      simp [allNodesNs] at hm
  | .cons n ns, m => by
      intro hm x hx
      rcases List.mem_append.mp (by simpa [allNodesNs] using hm) with h1 | h2
      · have := credLines_mono n m h1 x hx
        simp only [credLinesNodes, List.mem_append]
        tauto
      · have := credLines_mono_list ns m h2 x hx
        simp only [credLinesNodes, List.mem_append]
        tauto
end

theorem credScanLines_mem : ∀ (ts : PyNodes) (value : PyNode) (ln : Nat),
    (∃ id ln2, PyNode.name id ln2 ∈ pyToList ts ∧ credMatch id = true) →
    valueIsConst value = true → ln ∈ credScanLines value ln ts
  | .nil, value, ln => by
      rintro ⟨id, ln2, hmem, hc⟩ hv
      simp [pyToList] at hmem
  | .cons t ts, value, ln => by
      rintro ⟨id, ln2, hmem, hc⟩ hv
      simp only [pyToList, List.mem_cons] at hmem
      rcases hmem with heq | hmem2
      · subst heq
        simp [credScanLines, hc, hv]
      · exact List.mem_append_right _
          (credScanLines_mem ts value ln ⟨id, ln2, hmem2, hc⟩ hv)

theorem credScanLines_nil_of_not_const : ∀ (ts : PyNodes) (value : PyNode) (ln : Nat),
    valueIsConst value = false → credScanLines value ln ts = []
  | .nil, _, _ => by
      intro _
      rfl
  | .cons t ts, value, ln => by
      intro h
      cases t <;> simp [credScanLines, h, credScanLines_nil_of_not_const ts value ln h]

theorem analyzePatterns_cred (v : CVState) (h : v.has_hardcoded_credentials = true) :
    Finding.mk hardcodedCredentialsPattern v.credential_locations ∈ analyzePatterns v := by
  unfold analyzePatterns
  rw [h]
  simp

/-- C6 (amended): an assignment anywhere in the unit whose target is a name
containing a credential word (lower-cased) and whose value is a literal
constant — of any kind, not only a string — yields a hardcoded-credentials
finding at the assignment's line; and no assignment whose value is not a
literal constant contributes any credential line.  (The claimed restriction
to *string* constants fails: see the counterexample.) -/
theorem hardcoded_credentials_spec (module : PyNodes) (targets : PyNodes)
    (value : PyNode) (ln : Nat) :
    (PyNode.assign targets value ln ∈ allNodesNs module →
      (∃ id ln2, PyNode.name id ln2 ∈ pyToList targets ∧ credMatch id = true) →
      valueIsConst value = true →
      ln ∈ (runSafety module).credential_locations ∧
      ∃ f ∈ analyzePatterns (runSafety module),
        f.pattern = hardcodedCredentialsPattern ∧ ln ∈ f.locations) ∧
    (valueIsConst value = false → credScanLines value ln targets = []) := by
  constructor
  · intro hmem hname hconst
    have hln : ln ∈ credLinesNode (.assign targets value ln) := by
      simp only [credLinesNode, List.append_assoc, List.mem_append]
      exact Or.inl (credScanLines_mem targets value ln hname hconst)
    have hmod : ln ∈ credLinesNodes module :=
      credLines_mono_list module (.assign targets value ln) hmem ln hln
    have hc := svisitNodes_cred initCVState module
    simp only [initCVState, List.nil_append, Bool.false_or] at hc
    have hloc : ln ∈ (runSafety module).credential_locations := by
      simp only [runSafety, initCVState, hc.1]
      exact hmod
    have hflag : (runSafety module).has_hardcoded_credentials = true := by
      simp only [runSafety, initCVState, hc.2]
      simp only [Bool.not_eq_true', List.isEmpty_eq_false]
      exact List.ne_nil_of_mem hmod
    exact ⟨hloc,
      ⟨hardcodedCredentialsPattern, (runSafety module).credential_locations⟩,
      analyzePatterns_cred _ hflag, rfl, hloc⟩
  · exact credScanLines_nil_of_not_const targets value ln

/-- Witness for `hardcoded_credentials_spec` on the spec's own example
`api_key = "1234secret"`, plus the only-if direction on a non-constant
value. -/
theorem hardcoded_credentials_spec_witness :
    (1 ∈ (runSafety c6WitModule).credential_locations ∧
      ∃ f ∈ analyzePatterns (runSafety c6WitModule),
        f.pattern = hardcodedCredentialsPattern ∧ 1 ∈ f.locations) ∧
    credScanLines (PyNode.name "x" 1) 1 (.cons (.name "api_key" 1) .nil) = [] := by
  have h := hardcoded_credentials_spec c6WitModule (.cons (.name "api_key" 1) .nil)
    (.constant (.str "1234secret") 1) 1
  have h2 := hardcoded_credentials_spec c6WitModule (.cons (.name "api_key" 1) .nil)
    (.name "x" 1) 1
  exact ⟨h.1 (by decide) ⟨"api_key", 1, by decide, by decide⟩ (by decide),
    h2.2 (by decide)⟩

/-- Counterexample to C6 as stated: `api_key = 42` assigns a numeric, not
string, literal — yet the analyzer still produces the credential finding,
because `isinstance(node.value, (ast.Str, ast.Constant))` matches every
literal constant. -/
theorem hardcoded_credentials_counterexample :
    valueIsConst (PyNode.constant (.num 42) 1) = true ∧
    isStrNode (PyNode.constant (.num 42) 1) = false ∧
    analyzePatterns (runSafety c6CexModule)
      = [⟨hardcodedCredentialsPattern, [1]⟩] := by decide

/-- Auxiliary: on any tree whose identifiers are dot-free (as every tree the
Python parser produces is), the unsafe-deserialization check never fires,
because it compares dotted names against bare `ast.Name` ids. -/
theorem deser_dotfree_general (module : PyNodes) (h : dotFreeNodes module = true) :
    (runSafety module).has_unsafe_deserialization = false ∧
    (runSafety module).deserialization_locations = [] := by
  have hd := svisitNodes_deser initCVState module h
  constructor
  · simpa [runSafety, initCVState] using hd.1
  · simpa [runSafety, initCVState] using hd.2

/-- C7 (code evidence): on `data = pickle.loads(untrusted)` — the claim's own
scenario — the callee is an `ast.Attribute`, not a bare `ast.Name`, so the
visitor records no unsafe-deserialization location and the analysis returns
no findings at all at that input. -/
theorem deserialization_not_flagged :
    dotFreeNodes c7FailModule = true ∧
    (runSafety c7FailModule).has_unsafe_deserialization = false ∧
    (runSafety c7FailModule).deserialization_locations = [] ∧
    analyzePatterns (runSafety c7FailModule) = [] := by decide

theorem analyzePatterns_no_file (v : CVState) (hv : v.has_unsafe_file_ops = false)
    (f : Finding) (h : f ∈ analyzePatterns v) :
    f.pattern ≠ filePathManipulationPattern := by
  unfold analyzePatterns at h
  rw [hv] at h
  rcases List.mem_append.mp h with h | hF
  · rcases List.mem_append.mp h with h | hE
    · rcases List.mem_append.mp h with h | hD
      · rcases List.mem_append.mp h with h | hC
        · rcases List.mem_append.mp h with hA | hB
          · revert hA
            split_ifs <;> intro hA
            · rw [List.mem_singleton] at hA
              subst hA
              dsimp only
              decide
            · exact absurd hA (List.not_mem_nil f)
          · revert hB
            split_ifs <;> intro hB
            · rw [List.mem_singleton] at hB
              subst hB
              dsimp only
              decide
            · exact absurd hB (List.not_mem_nil f)
        · revert hC
          split_ifs <;> intro hC
          · rw [List.mem_singleton] at hC
            subst hC
            dsimp only
            decide
          · exact absurd hC (List.not_mem_nil f)
      · simp at hD
    · revert hE
      split_ifs <;> intro hE
      · rw [List.mem_singleton] at hE
        subst hE
        dsimp only
        decide
      · exact absurd hE (List.not_mem_nil f)
  · revert hF
    split_ifs <;> intro hF
    · rw [List.mem_singleton] at hF
      subst hF
      dsimp only
      decide
    · exact absurd hF (List.not_mem_nil f)

/-- C8 (code evidence): the `has_unsafe_file_ops` flag is initialized and
checked by `_analyze_patterns` but set by no visitor method, so on every
input the flag stays false, the location list stays empty, and no finding
ever carries the file-path pattern. -/
theorem file_ops_never_flagged (module : PyNodes) :
    (runSafety module).has_unsafe_file_ops = false ∧
    (runSafety module).file_op_locations = [] ∧
    ∀ f ∈ analyzePatterns (runSafety module), f.pattern ≠ filePathManipulationPattern := by
  have hf := svisitNodes_fileop initCVState module
  have h1 : (runSafety module).has_unsafe_file_ops = false := by
    simpa [runSafety, initCVState] using hf.1
  have h2 : (runSafety module).file_op_locations = [] := by
    simpa [runSafety, initCVState] using hf.2
  refine ⟨h1, h2, ?_⟩
  intro f hfm
  exact analyzePatterns_no_file (runSafety module) h1 f hfm

/-- Witness for `file_ops_never_flagged` on a module that does produce a
(debug) finding: that finding's pattern is not the file-path pattern. -/
theorem file_ops_never_flagged_witness :
    (runSafety c8WitModule).has_unsafe_file_ops = false ∧
    (runSafety c8WitModule).file_op_locations = [] ∧
    (Finding.mk debugInfoPattern [1]).pattern ≠ filePathManipulationPattern := by
  have h := file_ops_never_flagged c8WitModule
  exact ⟨h.1, h.2.1, h.2.2 ⟨debugInfoPattern, [1]⟩ (by decide)⟩
